import Mathlib

/-!
# Landlord tile-map editor: paint, fill, undo and link-edit logic

A shallow embedding of the editing logic of `src/src/EditorState.cpp`
(stamp, whole-map fill, contiguous fill, collision paint, undo, link-edit and
the input handlers that drive them) and of the create-new action of
`src/src/StartState.cpp`, and theorems about them.

The classes `Map`, `Cell`, `Pattern`, `ToolBar`, `TilePalette` and `MiniMap`
are collaborators whose sources are not part of `src/`; they are modelled here
from the way `EditorState.cpp` uses them.  Grid coordinates are C++ `int`s and
are modelled as `Int` (map coordinates are far from the 32-bit limits, so no
wrap-around is modelled); `%` on `int` is truncated remainder, `Int.tmod`.
-/

namespace Landlord

/-! ## Data model -/

/-- Integer 2D coordinate (`Point_2d`), used for pixel and for grid addressing. -/
structure Point_2d where
  x : Int
  y : Int
deriving DecidableEq, Repr

/-- The four paintable tile layers (`Cell::TileLayer`). -/
inductive TileLayer where
  | LAYER_BASE
  | LAYER_BASE_DETAIL
  | LAYER_DETAIL
  | LAYER_FOREGROUND
deriving DecidableEq, Repr

/-- Modelled from the spec: `Cell` (its header is not under `src/`) is a per-cell
record holding one tile index per layer, a blocked flag and a link (destination
map name and destination point). -/
structure Cell where
  base : Int
  baseDetail : Int
  detail : Int
  foreground : Int
  blocked : Bool
  link : String
  link_destination : Point_2d
deriving DecidableEq, Repr

/-- Getter `Cell::index(layer)`. -/
def Cell.index (c : Cell) : TileLayer → Int
  | .LAYER_BASE => c.base
  | .LAYER_BASE_DETAIL => c.baseDetail
  | .LAYER_DETAIL => c.detail
  | .LAYER_FOREGROUND => c.foreground

/-- Setter `Cell::index(layer, value)`. -/
def Cell.setIndex (c : Cell) (layer : TileLayer) (v : Int) : Cell :=
  match layer with
  | .LAYER_BASE => { c with base := v }
  | .LAYER_BASE_DETAIL => { c with baseDetail := v }
  | .LAYER_DETAIL => { c with detail := v }
  | .LAYER_FOREGROUND => { c with foreground := v }

/-- Setter `Cell::blocked(value)`. -/
def Cell.setBlocked (c : Cell) (b : Bool) : Cell := { c with blocked := b }

/-- Modelled from the spec: `Pattern` (its header is not under `src/`) is a
read-only rectangular brush with `width()`, `height()` and `value(col, row)`. -/
structure Pattern where
  width : Int
  height : Int
  value : Int → Int → Int

/-- Modelled from the spec: the map's tile field, the whole-map cell data that
`Map::field()` returns and `Map::field(snapshot)` puts back.  It is taken as a
store addressed by grid coordinates `(x, y)`; nothing is assumed of the accessor
beyond read-after-write. -/
abbrev Field := Int → Int → Cell

/-- Modelled from the spec: `Map` (its header is not under `src/`) with its
`width()`, `height()`, its tile field and the pixel-to-grid translation
`getGridCoords`, which depends on camera and tile size and is kept abstract.
`panned relX relY` is what a camera move by `(relX, relY)` makes of that
translation. -/
structure Map where
  width : Int
  height : Int
  cells : Field
  gridCoords : Point_2d → Point_2d
  panned : Int → Int → (Point_2d → Point_2d) → (Point_2d → Point_2d)

/-- Accessor `Map::getCellByGridCoords(x, y)`. -/
def Map.getCellByGridCoords (m : Map) (x y : Int) : Cell := m.cells x y

/-- Accessor `Map::getGridCoords(pixelPoint)`. -/
def Map.getGridCoords (m : Map) (pt : Point_2d) : Point_2d := m.gridCoords pt

/-- Accessor `Map::getCell(pixelPoint)`: the cell whose grid coordinates are
those of the pixel point. -/
def Map.getCell (m : Map) (pt : Point_2d) : Cell :=
  m.getCellByGridCoords (m.getGridCoords pt).x (m.getGridCoords pt).y

/-- Camera pan `Map::moveCamera(relX, relY)`: only the pixel-to-grid translation
changes. -/
def Map.moveCamera (m : Map) (relX relY : Int) : Map :=
  { m with gridCoords := m.panned relX relY m.gridCoords }

/-- Getter `Map::field()`. -/
def Map.field (m : Map) : Field := m.cells

/-- Setter `Map::field(snapshot)`. -/
def Map.setField (m : Map) (f : Field) : Map := { m with cells := f }

/-- Replace the cell at grid coordinates `(x, y)`: the effect of calling a
setter on the reference returned by `getCellByGridCoords(x, y)`. -/
def Map.setCell (m : Map) (x y : Int) (c : Cell) : Map :=
  { m with cells := fun a b => if a = x ∧ b = y then c else m.cells a b }

/-- Statement `mMap.getCellByGridCoords(x, y).index(layer, v)`. -/
def Map.setIndex (m : Map) (x y : Int) (layer : TileLayer) (v : Int) : Map :=
  m.setCell x y ((m.getCellByGridCoords x y).setIndex layer v)

/-- Statement `mMap.getCellByGridCoords(x, y).blocked(b)`. -/
def Map.setBlocked (m : Map) (x y : Int) (b : Bool) : Map :=
  m.setCell x y ((m.getCellByGridCoords x y).setBlocked b)

/-- Tile index of the cell at point `q` in `layer`. -/
def Map.indexAt (m : Map) (layer : TileLayer) (q : Point_2d) : Int :=
  (m.getCellByGridCoords q.x q.y).index layer

/-- The bounds test of the contiguous fill:
`x >= 0 && x < mMap.width() && y >= 0 && y < mMap.height()`. -/
def Map.inBounds (m : Map) (q : Point_2d) : Bool :=
  decide (q.x ≥ 0) && decide (q.x < m.width) && decide (q.y ≥ 0) && decide (q.y < m.height)

/-- The pattern's value wrapped at a grid coordinate:
`p.value(x % p.width(), y % p.height())` with C++ truncated remainder. -/
def Pattern.wrapped (p : Pattern) (q : Point_2d) : Int :=
  p.value (q.x.tmod p.width) (q.y.tmod p.height)

/-! ## Whole-map fill -/

/-- The inner loop of `patternFill`: `for (col = 0; col < mMap.width(); col++)`. -/
def patternFillRow (layer : TileLayer) (p : Pattern) (m : Map) (row : Int) : Map :=
  (List.range m.width.toNat).foldl
    (fun acc (col : Nat) =>
      acc.setIndex col row layer (p.value ((col : Int).tmod p.width) (row.tmod p.height)))
    m

/-- Whole-map fill `EditorState::patternFill(layer)` with the palette pattern `p`. -/
def patternFill (layer : TileLayer) (p : Pattern) (m : Map) : Map :=
  (List.range m.height.toNat).foldl
    (fun acc (row : Nat) => patternFillRow layer p acc row)
    m

/-! ## Contiguous fill -/

/-- Neighbour offsets `dX = { 0, 1, 0, -1 }`. -/
def dX : List Int := [0, 1, 0, -1]

/-- Neighbour offsets `dY = { -1, 0, 1, 0 }`. -/
def dY : List Int := [-1, 0, 1, 0]

/-- The four neighbour coordinates `(x + dX[i], y + dY[i])`, `i = 0..3`, in loop order. -/
def neighbours (q : Point_2d) : List Point_2d :=
  List.zipWith (fun dx dy => (⟨q.x + dx, q.y + dy⟩ : Point_2d)) dX dY

/-- The `for (i = 0; i < 4; i++)` loop of the contiguous fill: every neighbour
inside the map whose layer value equals `seed_index` is pushed on the stack
(the head of the list is the top of the stack). -/
def floodPush (m : Map) (layer : TileLayer) (seed_index : Int) (top : Point_2d)
    (stack : List Point_2d) : List Point_2d :=
  (neighbours top).foldl
    (fun st coord =>
      if m.inBounds coord = true ∧ m.indexAt layer coord = seed_index then coord :: st else st)
    stack

/-- The state of the fill loop: the map and `FLOOD_STACK`. -/
structure FloodState where
  map : Map
  stack : List Point_2d

/-- One iteration of `while (!FLOOD_STACK.empty())`: pop the top, write the
wrapped pattern value there, push the neighbours that still hold the seed
index.  On an empty stack the loop has ended and the state stays as it is. -/
def floodBody (layer : TileLayer) (p : Pattern) (seed_index : Int) (st : FloodState) :
    FloodState :=
  match st.stack with
  | [] => st
  | top :: rest =>
    let m1 := st.map.setIndex top.x top.y layer (p.wrapped top)
    { map := m1, stack := floodPush m1 layer seed_index top rest }

/-- The fill loop run for at most `fuel` iterations: `some` of the final map
when the stack empties within the budget, `none` when it does not. -/
def floodLoop (layer : TileLayer) (p : Pattern) (seed_index : Int) :
    Nat → FloodState → Option Map
  | 0, st => match st.stack with
    | [] => some st.map
    | _ :: _ => none
  | fuel + 1, st => match st.stack with
    | [] => some st.map
    | _ :: _ => floodLoop layer p seed_index fuel (floodBody layer p seed_index st)

/-- The cells written by the first `n` iterations of the fill loop, in order
(the coordinate popped by each iteration is the one it writes). -/
def floodWritten (layer : TileLayer) (p : Pattern) (seed_index : Int) :
    Nat → FloodState → List Point_2d
  | 0, _ => []
  | n + 1, st => match st.stack with
    | [] => []
    | top :: _ => top :: floodWritten layer p seed_index n (floodBody layer p seed_index st)

/-- Contiguous fill `EditorState::patternFill_Contig(layer, _pt, seed_index)`
with the palette pattern `p`, run with an iteration budget `fuel`: the seed
guard, then the loop started from the stack holding only the seed. -/
def patternFill_Contig (fuel : Nat) (p : Pattern) (m : Map) (layer : TileLayer)
    (pt : Point_2d) (seed_index : Int) : Option Map :=
  if seed_index = p.wrapped pt then some m
  else floodLoop layer p seed_index fuel { map := m, stack := [pt] }

/-- The set of cells written by a contiguous fill run for `fuel` iterations
(none when the seed guard returns at once). -/
def patternFill_ContigWritten (fuel : Nat) (p : Pattern) (m : Map) (layer : TileLayer)
    (pt : Point_2d) (seed_index : Int) : List Point_2d :=
  if seed_index = p.wrapped pt then []
  else floodWritten layer p seed_index fuel { map := m, stack := [pt] }

/-! ## Connected components (specification side) -/

/-- Reachability from `a` to `c` by 4-neighbour steps through cells satisfying `ok`
(both end points included). -/
inductive Reach (ok : Point_2d → Prop) : Point_2d → Point_2d → Prop
  | refl (a : Point_2d) : ok a → Reach ok a a
  | cons (a b c : Point_2d) : ok a → b ∈ neighbours a → Reach ok b c → Reach ok a c

/-- The cells of the map that hold value `s` in `layer`. -/
def holds (m : Map) (layer : TileLayer) (s : Int) (q : Point_2d) : Prop :=
  m.inBounds q = true ∧ m.indexAt layer q = s

/-- The 4-connected component of cells of the map holding `s` in `layer` that
contains `seed`. -/
def Component (m : Map) (layer : TileLayer) (s : Int) (seed q : Point_2d) : Prop :=
  Reach (holds m layer s) seed q

/-! ## Invariants of the fill loop (proof side) -/

/-- What every state of the fill loop satisfies, whatever the pattern: the map
keeps its size, every cell is either untouched or is a cell of the seed's
component that received its wrapped pattern value, and only cells of the
component are on the stack. -/
structure FloodInv (m0 : Map) (layer : TileLayer) (p : Pattern) (s : Int) (seed : Point_2d)
    (st : FloodState) : Prop where
  width_eq : st.map.width = m0.width
  height_eq : st.map.height = m0.height
  frame : ∀ x y, st.map.cells x y = m0.cells x y ∨
    (Component m0 layer s seed ⟨x, y⟩ ∧
      st.map.cells x y = (m0.cells x y).setIndex layer (p.wrapped ⟨x, y⟩))
  stack_comp : ∀ q ∈ st.stack, Component m0 layer s seed q

/-- What the states of the fill loop satisfy in addition when no cell of the
component receives the seed value: every cell of the component still holding
the seed value is reachable from the stack through such cells, and a stack entry
that was already overwritten has all its seed-valued neighbours above it. -/
structure FloodProgress (m0 : Map) (layer : TileLayer) (s : Int) (seed : Point_2d)
    (st : FloodState) : Prop where
  pending : ∀ c, Component m0 layer s seed c → st.map.indexAt layer c ≠ s ∨
    ∃ q ∈ st.stack, Reach (holds st.map layer s) q c
  order : ∀ l1 r l2, st.stack = l1 ++ r :: l2 → st.map.indexAt layer r ≠ s →
    ∀ n ∈ neighbours r, holds st.map layer s n → n ∈ l1

/-- The number of cells of the map that hold `s` in `layer`. -/
def seedCount (m : Map) (layer : TileLayer) (s : Int) : Nat :=
  ((Finset.Ico 0 m.width ×ˢ Finset.Ico 0 m.height).filter
    (fun q => m.indexAt layer ⟨q.1, q.2⟩ = s)).card

/-- Termination measure of the fill loop. -/
def floodMeasure (layer : TileLayer) (s : Int) (st : FloodState) : Nat :=
  5 * seedCount st.map layer s + st.stack.length

/-! ## Concrete inputs used in examples -/

/-- A cell holding tile 5 in the base layer and nothing else. -/
def exCell : Cell := ⟨5, 0, 0, 0, false, "", ⟨0, 0⟩⟩

/-- A 3 x 1 map whose cells all hold tile 5 in the base layer. -/
def loopMap : Map := ⟨3, 1, fun _ _ => exCell, id, fun _ _ g => g⟩

/-- A 3 x 1 pattern with values 7, 5, 5. -/
def loopPattern : Pattern := ⟨3, 1, fun col _ => if col = 0 then 7 else 5⟩

/-- A 1 x 1 pattern holding tile 7. -/
def exPattern : Pattern := ⟨1, 1, fun _ _ => 7⟩

/-- The states the fill loop cycles through on `loopMap` with `loopPattern`
after its first iteration. -/
def LoopInv (st : FloodState) : Prop :=
  st.map.width = 3 ∧ st.map.height = 1 ∧
  st.map.indexAt .LAYER_BASE ⟨0, 0⟩ = 7 ∧
  st.map.indexAt .LAYER_BASE ⟨1, 0⟩ = 5 ∧
  st.map.indexAt .LAYER_BASE ⟨2, 0⟩ = 5 ∧
  (st.stack = [⟨1, 0⟩] ∨ st.stack = [⟨2, 0⟩])

/-- A 10 x 10 map whose cells all hold tile 5 in the base layer. -/
def stripeMap : Map := ⟨10, 10, fun _ _ => exCell, id, fun _ _ g => g⟩

/-- A pattern one tile wide and two tiles high: tile 7 above tile 5. -/
def stripePattern : Pattern := ⟨1, 2, fun _ row => if row = 0 then 7 else 5⟩

/-- What holds of every state of the fill of `stripeMap` with `stripePattern`
after its first iteration: the adjacent cells (0, 1) and (1, 1) hold the seed
value 5 and one of them is on the stack. -/
def StripeInv (st : FloodState) : Prop :=
  st.map.width = 10 ∧ st.map.height = 10 ∧
  st.map.indexAt .LAYER_BASE ⟨0, 1⟩ = 5 ∧
  st.map.indexAt .LAYER_BASE ⟨1, 1⟩ = 5 ∧
  ((⟨0, 1⟩ : Point_2d) ∈ st.stack ∨ (⟨1, 1⟩ : Point_2d) ∈ st.stack)

/-! ## Stamp loops -/

/-- The two nested loops shared by `EditorState::pattern` and
`EditorState::pattern_collision`:
`for (row = 0; row < _p.height(); row++) for (col = 0; col < _p.width(); col++)`,
computing `x = _pt.x() - ((_p.width() - 1) - col)` and
`y = _pt.y() - ((_p.height() - 1) - row)` and performing the write only
`if (x >= 0 && y >= 0)`.  The write itself is the parameter `write`, called with
the target `(x, y)` and the brush cell `(col, row)`. -/
def stampLoop {σ : Type} (_p : Pattern) (_pt : Point_2d)
    (write : σ → Int → Int → Int → Int → σ) (init : σ) : σ :=
  (List.range _p.height.toNat).foldl
    (fun acc (row : Nat) =>
      (List.range _p.width.toNat).foldl
        (fun acc2 (col : Nat) =>
          if _pt.x - ((_p.width - 1) - col) ≥ 0 ∧ _pt.y - ((_p.height - 1) - row) ≥ 0 then
            write acc2 (_pt.x - ((_p.width - 1) - col)) (_pt.y - ((_p.height - 1) - row)) col row
          else acc2)
        acc)
    init

/-- The writes the stamp loops perform, in order, each as `(x, y, col, row)`:
the loops run with a write that only records its arguments. -/
def stampWrites (_p : Pattern) (_pt : Point_2d) : List (Int × Int × Int × Int) :=
  stampLoop _p _pt (fun log x y col row => log ++ [(x, y, col, row)]) []

/-! ## Editor state -/

/-- The editing modes (`EditState`). -/
inductive EditState where
  | STATE_BASE_TILE_INDEX
  | STATE_BASE_DETAIL_TILE_INDEX
  | STATE_DETAIL_TILE_INDEX
  | STATE_FOREGROUND_TILE_INDEX
  | STATE_TILE_COLLISION
  | STATE_MAP_LINK_EDIT
deriving DecidableEq, Repr

/-- The table filled by `fillStateToLayerTable`; `none` is `StateToLayer.end()`. -/
def StateToLayer : EditState → Option TileLayer
  | .STATE_BASE_TILE_INDEX => some .LAYER_BASE
  | .STATE_BASE_DETAIL_TILE_INDEX => some .LAYER_BASE_DETAIL
  | .STATE_DETAIL_TILE_INDEX => some .LAYER_DETAIL
  | .STATE_FOREGROUND_TILE_INDEX => some .LAYER_FOREGROUND
  | .STATE_TILE_COLLISION => none
  | .STATE_MAP_LINK_EDIT => none

/-- A pixel rectangle (`Rectangle_2d`). -/
structure Rectangle_2d where
  x : Int
  y : Int
  w : Int
  h : Int
deriving DecidableEq, Repr

/-- Modelled from the spec: `isPointInRect` (declared in `Common.h`, not under
`src/`) tells whether a pixel point lies in a chrome rectangle; edges count as
inside. -/
def isPointInRect (pt : Point_2d) (r : Rectangle_2d) : Bool :=
  decide (r.x ≤ pt.x) && decide (pt.x ≤ r.x + r.w) && decide (r.y ≤ pt.y) &&
    decide (pt.y ≤ r.y + r.h)

/-- Modelled from the spec: the part of `ToolBar` (not under `src/`) the editor
reads: the current tool, the contiguous-flood flag, the per-layer visibility
flags, the eraser and collision brush and the flood tool's hot zone. -/
structure ToolBar where
  flood : Bool
  flood_contiguous : Bool
  pencil : Bool
  erase : Bool
  show_bg : Bool
  show_bg_detail : Bool
  show_detail : Bool
  show_foreground : Bool
  show_collision : Bool
  brush : Pattern
  flood_tool_extended_area : Rectangle_2d

/-- Modelled from the spec: the part of `TilePalette` (not under `src/`) the
editor reads: the selected pattern, its panel rectangle and whether it is
handling events. -/
structure TilePalette where
  pattern : Pattern
  rect : Rectangle_2d
  responding_to_events : Bool

/-- Modelled from the spec: the part of `MiniMap` (not under `src/`) the editor
reads. -/
structure MiniMap where
  rect : Rectangle_2d
  responding_to_events : Bool

/-- The layer-visibility gate `layer_hidden(_s, _t)`. -/
def layer_hidden (_s : EditState) (_t : ToolBar) : Bool :=
  match _s with
  | .STATE_BASE_TILE_INDEX => !_t.show_bg
  | .STATE_BASE_DETAIL_TILE_INDEX => !_t.show_bg_detail
  | .STATE_DETAIL_TILE_INDEX => !_t.show_detail
  | .STATE_FOREGROUND_TILE_INDEX => !_t.show_foreground
  | .STATE_TILE_COLLISION => !_t.show_collision
  | _ => false

/-- What `mReturnState` points to: the editor itself, a new Start state, or null. -/
inductive ReturnState where
  | self
  | newStartState
  | null
deriving DecidableEq, Repr

/-- The members of `EditorState` that its input handlers read and write.
`mFieldUndo` is the undo snapshot: `none` is the empty container (no snapshot
taken), `some f` a captured field.  `mLinkCell` is the pointer to the inspected
cell, kept as that cell's grid coordinates.  Widgets' fonts, positions and visibility, the mouse pointer image and the
timer are rendering state and are left out. -/
structure EditorState where
  mMap : Map
  mToolBar : ToolBar
  mTilePalette : TilePalette
  mMiniMap : MiniMap
  mEditState : EditState
  mPreviousEditState : EditState
  mFieldUndo : Option Field
  mMouseCoords : Point_2d
  mSavedMouseCoords : Point_2d
  mLeftButtonDown : Bool
  mRightButtonDown : Bool
  mPlacingCollision : Bool
  mMapChanged : Bool
  mDrawDebug : Bool
  mHideUi : Bool
  mScrollVector : Point_2d
  mReturnState : ReturnState
  mLinkCell : Option Point_2d
  mTxtLinkDestination : String
  mTxtLinkDestX : String
  mTxtLinkDestY : String

/-- What interrupts a handler: the exception thrown by `changeTileTexture`, or a
fill loop that did not end within the iteration budget. -/
inductive Fault where
  | badState
  | fuelExhausted
deriving DecidableEq, Repr

/-- Undo snapshot `EditorState::saveUndo`: `mFieldUndo = mMap.field()`. -/
def EditorState.saveUndo (s : EditorState) : EditorState :=
  { s with mFieldUndo := some s.mMap.field }

/-- State change `EditorState::setState(state)`. -/
def EditorState.setState (s : EditorState) (state : EditState) : EditorState :=
  if s.mEditState = state then s
  else { s with mPreviousEditState := s.mEditState, mEditState := state }

/-- Swap `EditorState::restorePreviousState()`. -/
def EditorState.restorePreviousState (s : EditorState) : EditorState :=
  { s with mEditState := s.mPreviousEditState, mPreviousEditState := s.mEditState }

/-- Whole-map fill `EditorState::patternFill(layer)` on the editor's map with the
palette's pattern. -/
def EditorState.patternFill (s : EditorState) (layer : TileLayer) : EditorState :=
  { s with mMap := Landlord.patternFill layer s.mTilePalette.pattern s.mMap }

/-- Contiguous fill `EditorState::patternFill_Contig(layer, _pt, seed_index)` on the
editor's map with the palette's pattern. -/
def EditorState.patternFill_Contig (fuel : Nat) (s : EditorState) (layer : TileLayer)
    (_pt : Point_2d) (seed_index : Int) : Except Fault EditorState :=
  match Landlord.patternFill_Contig fuel s.mTilePalette.pattern s.mMap layer _pt seed_index with
  | some m => .ok { s with mMap := m }
  | none => .error .fuelExhausted

/-- The brush `_p` of `EditorState::pattern`: the palette's pattern, or the
toolbar's brush `if (value < 0)`. -/
def EditorState.stampBrush (s : EditorState) (value : Int) : Pattern :=
  if value < 0 then s.mToolBar.brush else s.mTilePalette.pattern

/-- Stamp `EditorState::pattern(layer, value)`: the brush is anchored with its
bottom-right cell on the cursor cell `mMap.getGridCoords(mMouseCoords)`; each
target receives the brush's value `if (value >= 0)` and `-1` otherwise. -/
def EditorState.pattern (s : EditorState) (layer : TileLayer) (value : Int) : EditorState :=
  let stamped : Map :=
    stampLoop (s.stampBrush value) (s.mMap.getGridCoords s.mMouseCoords)
      (fun m x y col row =>
        if value ≥ 0 then m.setIndex x y layer ((s.stampBrush value).value col row)
        else m.setIndex x y layer (-1))
      s.mMap
  { s with mMap := stamped }

/-- Collision stamp `EditorState::pattern_collision()`: every target's blocked
flag receives `mPlacingCollision`. -/
def EditorState.pattern_collision (s : EditorState) : EditorState :=
  let stamped : Map :=
    stampLoop s.mToolBar.brush (s.mMap.getGridCoords s.mMouseCoords)
      (fun m x y _ _ => m.setBlocked x y s.mPlacingCollision)
      s.mMap
  { s with mMap := stamped }

/-- Paint dispatch `EditorState::changeTileTexture()`.  The pencil calls
`pattern(layer)` with the default `value` of its declaration (the header is
not under `src/`), written here as `0`: every non-negative value behaves alike. -/
def EditorState.changeTileTexture (fuel : Nat) (s : EditorState) : Except Fault EditorState :=
  match StateToLayer s.mEditState with
  | none => .error .badState
  | some layer =>
    if layer_hidden s.mEditState s.mToolBar then .ok s
    else if s.mToolBar.flood then
      if s.mToolBar.flood_contiguous then
        (s.patternFill_Contig fuel layer (s.mMap.getGridCoords s.mMouseCoords)
          ((s.mMap.getCell s.mMouseCoords).index layer)).map
          (fun s1 => { s1 with mMapChanged := true })
      else .ok { (s.patternFill layer) with mMapChanged := true }
    else if s.mToolBar.pencil then .ok { (s.pattern layer 0) with mMapChanged := true }
    else if s.mToolBar.erase then .ok { (s.pattern layer (-1)) with mMapChanged := true }
    else .ok s

/-- The ignore test at the head of `handleLeftButtonDown(x, y)`. -/
def EditorState.ignoresLeftButtonDown (s : EditorState) (x y : Int) : Bool :=
  decide (y < 32) ||
  (s.mToolBar.flood && isPointInRect ⟨x, y⟩ s.mToolBar.flood_tool_extended_area) ||
  decide (s.mEditState = .STATE_MAP_LINK_EDIT) ||
  isPointInRect ⟨x, y⟩ s.mTilePalette.rect ||
  isPointInRect ⟨x, y⟩ s.mMiniMap.rect ||
  isPointInRect ⟨x, y⟩ s.mTilePalette.rect

/-- Handler `EditorState::handleLeftButtonDown(x, y)`. -/
def EditorState.handleLeftButtonDown (fuel : Nat) (s : EditorState) (x y : Int) :
    Except Fault EditorState :=
  if s.ignoresLeftButtonDown x y then .ok s
  else if s.mEditState = .STATE_TILE_COLLISION then
    let s1 := s.saveUndo
    let g := s1.mMap.getGridCoords s1.mMouseCoords
    let s2 := { s1 with mMap := s1.mMap.setBlocked g.x g.y (!(s1.mMap.getCell s1.mMouseCoords).blocked) }
    let s3 := { s2 with mPlacingCollision := (s2.mMap.getCell s2.mMouseCoords).blocked }
    .ok s3.pattern_collision
  else
    s.saveUndo.changeTileTexture fuel

/-- Mouse buttons. -/
inductive MouseButton where
  | BUTTON_LEFT
  | BUTTON_RIGHT
  | BUTTON_MIDDLE
deriving DecidableEq, Repr

/-- Handler `EditorState::onMouseDown(button, x, y)`. -/
def EditorState.onMouseDown (fuel : Nat) (s : EditorState) (button : MouseButton) (x y : Int) :
    Except Fault EditorState :=
  match button with
  | .BUTTON_LEFT => ({ s with mLeftButtonDown := true }).handleLeftButtonDown fuel x y
  | .BUTTON_RIGHT => .ok { s with mRightButtonDown := true, mSavedMouseCoords := s.mMouseCoords }
  | .BUTTON_MIDDLE => .ok s

/-- Handler `EditorState::onMouseMove(x, y, relX, relY)`. -/
def EditorState.onMouseMove (fuel : Nat) (s : EditorState) (x y relX relY : Int) :
    Except Fault EditorState :=
  if s.mRightButtonDown = true ∧ s.mEditState ≠ .STATE_MAP_LINK_EDIT then
    .ok { s with mMap := s.mMap.moveCamera relX relY }
  else
    let s1 := { s with mMouseCoords := ⟨x, y⟩ }
    if s1.mLeftButtonDown then
      if decide (y < 32) || s1.mToolBar.flood || s1.mTilePalette.responding_to_events ||
          s1.mMiniMap.responding_to_events then .ok s1
      else if s1.mEditState = .STATE_TILE_COLLISION then .ok s1.pattern_collision
      else s1.changeTileTexture fuel
    else .ok s1

/-- Handler `EditorState::onMouseUp(button, x, y)`; the minimap refresh is
rendering and leaves the modelled state alone. -/
def EditorState.onMouseUp (s : EditorState) (button : MouseButton) (_x _y : Int) : EditorState :=
  match button with
  | .BUTTON_LEFT =>
    let s1 := { s with mLeftButtonDown := false }
    if s1.mEditState = .STATE_MAP_LINK_EDIT then s1
    else if s1.mEditState = .STATE_BASE_TILE_INDEX ∨
        s1.mEditState = .STATE_BASE_DETAIL_TILE_INDEX ∨
        s1.mEditState = .STATE_DETAIL_TILE_INDEX ∨
        s1.mEditState = .STATE_FOREGROUND_TILE_INDEX then
      if s1.mMapChanged then { s1 with mMapChanged := false } else s1
    else s1
  | .BUTTON_RIGHT => { s with mRightButtonDown := false }
  | .BUTTON_MIDDLE => s

/-- The keys `onKeyDown` distinguishes. -/
inductive KeyCode where
  | KEY_ESCAPE
  | KEY_LEFT
  | KEY_RIGHT
  | KEY_UP
  | KEY_DOWN
  | KEY_F1
  | KEY_F2
  | KEY_F3
  | KEY_F10
  | KEY_z
  | KEY_OTHER
deriving DecidableEq, Repr

/-- The scroll speed `SCROLL_SPEED = 250.0f`. -/
def SCROLL_SPEED : Int := 250

/-- Handler `EditorState::onKeyDown(key, mod, repeat)`; `control` is
`KeyTranslator::control(mod)`.  Text of the destination fields on `KEY_F3` is
the decimal rendering `string_format("%i", ...)`. -/
def EditorState.onKeyDown (s : EditorState) (key : KeyCode) (control : Bool)
    (isRepeat : Bool) : EditorState :=
  if isRepeat then s
  else if s.mEditState = .STATE_MAP_LINK_EDIT then s
  else
    match key with
    | .KEY_ESCAPE => { s with mReturnState := .newStartState }
    | .KEY_LEFT => { s with mScrollVector := ⟨-SCROLL_SPEED, s.mScrollVector.y⟩ }
    | .KEY_RIGHT => { s with mScrollVector := ⟨SCROLL_SPEED, s.mScrollVector.y⟩ }
    | .KEY_UP => { s with mScrollVector := ⟨s.mScrollVector.x, -SCROLL_SPEED⟩ }
    | .KEY_DOWN => { s with mScrollVector := ⟨s.mScrollVector.x, SCROLL_SPEED⟩ }
    | .KEY_F1 => { s with mDrawDebug := !s.mDrawDebug }
    | .KEY_F2 => s
    | .KEY_F3 =>
      let g := s.mMap.getGridCoords s.mMouseCoords
      let cell := s.mMap.getCell s.mMouseCoords
      ({ s with
          mLinkCell := some g,
          mTxtLinkDestination := cell.link,
          mTxtLinkDestX := toString cell.link_destination.x,
          mTxtLinkDestY := toString cell.link_destination.y }).setState .STATE_MAP_LINK_EDIT
    | .KEY_F10 => { s with mHideUi := !s.mHideUi }
    | .KEY_z =>
      if control then
        match s.mFieldUndo with
        | some f => { s with mMap := s.mMap.setField f }
        | none => s
      else s
    | .KEY_OTHER => s

/-- A stroke's continuation: `onMouseMove` for each `(x, y, relX, relY)` of the
list in turn, stopping at the first fault. -/
def EditorState.mouseMoves (fuel : Nat) (s : EditorState) :
    List (Int × Int × Int × Int) → Except Fault EditorState
  | [] => .ok s
  | mv :: rest =>
    match s.onMouseMove fuel mv.1 mv.2.1 mv.2.2.1 mv.2.2.2 with
    | .ok s1 => EditorState.mouseMoves fuel s1 rest
    | .error e => .error e

/-- The cursor cell: the grid coordinates `mMap.getGridCoords(mMouseCoords)` of
the tracked mouse position. -/
def EditorState.cursorCell (s : EditorState) : Point_2d :=
  s.mMap.getGridCoords s.mMouseCoords

/-- A 32-pixel tile grid below a 32-pixel toolbar strip: pixel to grid
translation of the example editor. -/
def exGrid (pt : Point_2d) : Point_2d := ⟨pt.x / 32, (pt.y - 32) / 32⟩

/-- An editor on a 10 x 10 map of 5s, with the pencil selected, a 1 x 1 palette
pattern holding tile 7, a 1 x 1 brush, every layer visible, no snapshot taken
and no button held. -/
def exEditor : EditorState where
  mMap := ⟨10, 10, fun _ _ => exCell, exGrid, fun _ _ g => g⟩
  mToolBar := ⟨false, false, true, false, true, true, true, true, true, exPattern, ⟨-100, -100, 0, 0⟩⟩
  mTilePalette := ⟨exPattern, ⟨-100, -100, 0, 0⟩, false⟩
  mMiniMap := ⟨⟨-100, -100, 0, 0⟩, false⟩
  mEditState := .STATE_BASE_TILE_INDEX
  mPreviousEditState := .STATE_BASE_TILE_INDEX
  mFieldUndo := none
  mMouseCoords := ⟨16, 48⟩
  mSavedMouseCoords := ⟨0, 0⟩
  mLeftButtonDown := false
  mRightButtonDown := false
  mPlacingCollision := false
  mMapChanged := false
  mDrawDebug := false
  mHideUi := false
  mScrollVector := ⟨0, 0⟩
  mReturnState := .self
  mLinkCell := none
  mTxtLinkDestination := ""
  mTxtLinkDestX := "0"
  mTxtLinkDestY := "0"

/-- The example editor switched to Collision state. -/
def exCollisionEditor : EditorState := { exEditor with mEditState := .STATE_TILE_COLLISION }

/-- A stroke that starts on the toolbar strip: primary button down at pixel
(16, 10), then a move with the button held to pixel (16, 48), over cell (0, 0). -/
def strokeFromChrome : Except Fault EditorState :=
  (exEditor.onMouseDown 0 .BUTTON_LEFT 16 10).bind (fun s1 => s1.onMouseMove 0 16 48 0 38)

/-- A first stroke painting cell (0, 0), released, followed by a stroke that
starts on the toolbar strip and is dragged over cell (1, 0). -/
def strokeThenStrokeFromChrome : Except Fault EditorState :=
  (exEditor.onMouseDown 0 .BUTTON_LEFT 16 48).bind (fun t1 =>
    ((t1.onMouseUp .BUTTON_LEFT 16 48).onMouseDown 0 .BUTTON_LEFT 48 10).bind (fun t3 =>
      t3.onMouseMove 0 48 48 0 38))

/-! ## Link-edit buttons -/

/-- Handler `EditorState::button_MapLinkOkay_Click()`: the inspected cell, when
there is one, receives the destination text as its link and the point
`(stringToInt(X), stringToInt(Y))` as its link destination; then the pointer
is cleared and the previous state restored.  `stringToInt` is declared in
`Common.h`, which is not under `src/`, and is taken as a parameter. -/
def EditorState.button_MapLinkOkay_Click (stringToInt : String → Int) (s : EditorState) :
    EditorState :=
  let s1 : EditorState :=
    match s.mLinkCell with
    | some c =>
      let dest : Point_2d := ⟨stringToInt s.mTxtLinkDestX, stringToInt s.mTxtLinkDestY⟩
      let cell : Cell :=
        { (s.mMap.getCellByGridCoords c.x c.y) with
          link := s.mTxtLinkDestination, link_destination := dest }
      { s with mMap := s.mMap.setCell c.x c.y cell }
    | none => s
  ({ s1 with mLinkCell := none }).restorePreviousState

/-- Handler `EditorState::button_MapLinkCancel_Click()`. -/
def EditorState.button_MapLinkCancel_Click (s : EditorState) : EditorState :=
  s.restorePreviousState

/-- The text the user leaves in the three link fields before pressing a button
(the text fields take key input themselves). -/
def EditorState.withLinkTexts (s : EditorState) (dest destX destY : String) : EditorState :=
  { s with mTxtLinkDestination := dest, mTxtLinkDestX := destX, mTxtLinkDestY := destY }

/-! ## Paint dispatch with the editor at exit -/

/-- Paint dispatch `EditorState::changeTileTexture()` together with the editor as
it stands when control leaves the function: by a `return` (no fault), by the
`throw` of its first statement (fault `badState`, nothing assigned yet), or,
when the fill loop is cut off by the iteration budget, as the budget's last
iteration leaves the map. -/
def EditorState.changeTileTextureExit (fuel : Nat) (s : EditorState) :
    EditorState × Option Fault :=
  match StateToLayer s.mEditState with
  | none => (s, some .badState)
  | some layer =>
    if layer_hidden s.mEditState s.mToolBar then (s, none)
    else if s.mToolBar.flood then
      if s.mToolBar.flood_contiguous then
        match Landlord.patternFill_Contig fuel s.mTilePalette.pattern s.mMap layer
            (s.mMap.getGridCoords s.mMouseCoords) ((s.mMap.getCell s.mMouseCoords).index layer) with
        | some m => ({ s with mMap := m, mMapChanged := true }, none)
        | none =>
          let cut : FloodState :=
            (floodBody layer s.mTilePalette.pattern
              ((s.mMap.getCell s.mMouseCoords).index layer))^[fuel]
                ⟨s.mMap, [s.mMap.getGridCoords s.mMouseCoords]⟩
          ({ s with mMap := cut.map }, some .fuelExhausted)
      else ({ (s.patternFill layer) with mMapChanged := true }, none)
    else if s.mToolBar.pencil then ({ (s.pattern layer 0) with mMapChanged := true }, none)
    else if s.mToolBar.erase then ({ (s.pattern layer (-1)) with mMapChanged := true }, none)
    else (s, none)

/-! ## Start screen -/

/-- The part of a `TextField` the Start screen reads and writes. -/
structure TextField where
  text : String
  highlight : Bool
deriving DecidableEq, Repr

/-- What the Start screen's `mReturnState` points to: the Start state itself, a
newly constructed `EditorState(name, mapPath, tsetPath, w, h)`, or null. -/
inductive StartReturn where
  | self
  | newEditor (name mapPath tsetPath : String) (w h : Int)
  | null
deriving DecidableEq, Repr

/-- The constants of `Defaults.h` (not under `src/`) used by the create-new action. -/
structure Defaults where
  EDITOR_NEW_MAP_NAME : String
  EDITOR_MAPS_PATH : String
  EDITOR_TSET_PATH : String
deriving DecidableEq, Repr

/-- The members of `StartState` the create-new action reads and writes;
`tsetSelection` is `mTsetFilesMenu.selectionText()` and `message` the global
`MESSAGE` set by `setMessage`. -/
structure StartState where
  mTxtWidth : TextField
  mTxtHeight : TextField
  txtMapPath : TextField
  tsetSelection : String
  message : String
  mReturnState : StartReturn
deriving DecidableEq, Repr

/-- Click handler `StartState::button_CreateNew_click()`.  `from_string` stands for
`from_string<int>(t, text, std::dec)` of `Common.h` (not under `src/`): it gives
whether the text was read as an integer and the value the variable `t`,
initialised to 0, holds afterwards.  The result of reading the width is tested by
an `if` with an empty body; construction of the editor is taken to succeed. -/
def StartState.button_CreateNew_click (from_string : String → Bool × Int) (d : Defaults)
    (s : StartState) : StartState :=
  let s0 : StartState :=
    { s with
      mTxtWidth := { s.mTxtWidth with highlight := false },
      mTxtHeight := { s.mTxtHeight with highlight := false },
      txtMapPath := { s.txtMapPath with highlight := false } }
  let mapWidth : Int := (from_string s0.mTxtWidth.text).2
  let mapHeight : Int := (from_string s0.mTxtHeight.text).2
  if !(from_string s0.mTxtHeight.text).1 then
    { s0 with
      mTxtHeight := { s0.mTxtHeight with highlight := true },
      message := "Map width field must be an integer." }
  else if mapWidth < 10 then
    { s0 with
      mTxtWidth := { s0.mTxtWidth with highlight := true },
      message := "Map width must be at least 10." }
  else if mapHeight < 10 then
    { s0 with
      mTxtHeight := { s0.mTxtHeight with highlight := true },
      message := "Map height must be at least 10." }
  else if s0.txtMapPath.text.isEmpty then
    { s0 with
      txtMapPath := { s0.txtMapPath with highlight := true },
      message := "Must enter a file name to proceed." }
  else
    let editor : StartReturn :=
      .newEditor d.EDITOR_NEW_MAP_NAME (d.EDITOR_MAPS_PATH ++ s0.txtMapPath.text)
        (d.EDITOR_TSET_PATH ++ s0.tsetSelection) mapWidth mapHeight
    { s0 with mReturnState := editor }

/-! ## More concrete inputs -/

/-- A 2 x 2 map whose cells all hold tile 5 in the base layer. -/
def squareMap : Map := ⟨2, 2, fun _ _ => exCell, id, fun _ _ g => g⟩

/-- The example editor after F3, with the primary button pressed at pixel
(16, 48) and then moved, still held, to pixel (20, 50). -/
def linkEditDrag : Except Fault EditorState :=
  ((exEditor.onKeyDown .KEY_F3 false false).onMouseDown 0 .BUTTON_LEFT 16 48).bind
    (fun s => s.onMouseMove 0 20 50 4 2)

/-- A reading of decimal text that knows the texts used in the examples. -/
def exFromString (t : String) : Bool × Int :=
  if t = "5" then (true, 5) else if t = "12" then (true, 12) else (false, 0)

/-- Example constants for the Start screen. -/
def exDefaults : Defaults := ⟨"New Map", "maps/", "tsets/"⟩

/-- A Start screen with width text `w`, height text `h` and path text `path`. -/
def exStart (w h path : String) : StartState :=
  ⟨⟨w, false⟩, ⟨h, false⟩, ⟨path, false⟩, "default.png", "", .self⟩

/-- What holds of the stack in every state of a fill: each entry's cell holds the
seed value or already holds its wrapped pattern value. -/
def StackInv (layer : TileLayer) (p : Pattern) (s : Int) (st : FloodState) : Prop :=
  ∀ q ∈ st.stack, st.map.indexAt layer q = s ∨ st.map.indexAt layer q = p.wrapped q

/-! ## Basic facts about the store -/

theorem Cell.index_setIndex (c : Cell) (l l' : TileLayer) (v : Int) :
    (c.setIndex l v).index l' = if l' = l then v else c.index l' := by
  cases l <;> cases l' <;> simp [Cell.setIndex, Cell.index]

theorem Cell.setIndex_setIndex (c : Cell) (l : TileLayer) (v w : Int) :
    (c.setIndex l v).setIndex l w = c.setIndex l w := by
  cases l <;> rfl

theorem Cell.blocked_setIndex (c : Cell) (l : TileLayer) (v : Int) :
    (c.setIndex l v).blocked = c.blocked := by
  cases l <;> rfl

theorem Cell.link_setIndex (c : Cell) (l : TileLayer) (v : Int) :
    (c.setIndex l v).link = c.link ∧ (c.setIndex l v).link_destination = c.link_destination := by
  cases l <;> exact ⟨rfl, rfl⟩

theorem Map.cells_setIndex (m : Map) (x y : Int) (l : TileLayer) (v : Int) (a b : Int) :
    (m.setIndex x y l v).cells a b =
      if a = x ∧ b = y then (m.cells x y).setIndex l v else m.cells a b := rfl

theorem Map.width_setIndex (m : Map) (x y : Int) (l : TileLayer) (v : Int) :
    (m.setIndex x y l v).width = m.width := rfl

theorem Map.height_setIndex (m : Map) (x y : Int) (l : TileLayer) (v : Int) :
    (m.setIndex x y l v).height = m.height := rfl

theorem Map.inBounds_setIndex (m : Map) (x y : Int) (l : TileLayer) (v : Int) (q : Point_2d) :
    (m.setIndex x y l v).inBounds q = m.inBounds q := rfl

theorem Map.indexAt_setIndex_self (m : Map) (t : Point_2d) (l : TileLayer) (v : Int) :
    (m.setIndex t.x t.y l v).indexAt l t = v := by
  simp [Map.indexAt, Map.getCellByGridCoords, Map.cells_setIndex, Cell.index_setIndex]

theorem Map.indexAt_setIndex_ne (m : Map) (t q : Point_2d) (l : TileLayer) (v : Int)
    (h : q ≠ t) : (m.setIndex t.x t.y l v).indexAt l q = m.indexAt l q := by
  have hne : ¬ (q.x = t.x ∧ q.y = t.y) := by
    rintro ⟨h1, h2⟩
    apply h
    cases q; cases t; simp_all
  simp [Map.indexAt, Map.getCellByGridCoords, Map.cells_setIndex, hne]

theorem Map.inBounds_iff (m : Map) (q : Point_2d) :
    m.inBounds q = true ↔ 0 ≤ q.x ∧ q.x < m.width ∧ 0 ≤ q.y ∧ q.y < m.height := by
  simp [Map.inBounds, and_assoc]

theorem Pattern.wrapped_eq_emod (p : Pattern) (q : Point_2d) (hw : 1 ≤ p.width)
    (hh : 1 ≤ p.height) (hx : 0 ≤ q.x) (hy : 0 ≤ q.y) :
    p.wrapped q = p.value (q.x % p.width) (q.y % p.height) := by
  unfold Pattern.wrapped
  rw [Int.tmod_eq_emod hx (by omega), Int.tmod_eq_emod hy (by omega)]

theorem foldl_push_eq {α : Type} (P : α → Prop) [DecidablePred P] (l : List α) (stack : List α) :
    l.foldl (fun st c => if P c then c :: st else st) stack
      = (l.filter (fun c => decide (P c))).reverse ++ stack := by
  induction l generalizing stack with
  | nil => simp
  | cons a t ih =>
    simp only [List.foldl_cons, List.filter_cons]
    by_cases h : P a
    · simp [h, ih]
    · simp [h, ih]

theorem floodPush_eq (m : Map) (layer : TileLayer) (s : Int) (top : Point_2d)
    (stack : List Point_2d) :
    floodPush m layer s top stack
      = ((neighbours top).filter
          (fun c => decide (m.inBounds c = true ∧ m.indexAt layer c = s))).reverse ++ stack := by
  unfold floodPush
  exact foldl_push_eq (fun c => m.inBounds c = true ∧ m.indexAt layer c = s) _ _

theorem neighbours_length (q : Point_2d) : (neighbours q).length = 4 := rfl

theorem not_mem_neighbours_self (q : Point_2d) : q ∉ neighbours q := by
  intro h
  simp [neighbours, dX, dY] at h
  rcases h with h | h | h | h
  all_goals
    have hx := congrArg Point_2d.x h
    have hy := congrArg Point_2d.y h
    simp at hx hy

/-! ## Reachability -/

theorem Reach.head_ok {ok : Point_2d → Prop} {a c : Point_2d} (h : Reach ok a c) : ok a := by
  cases h with
  | refl _ h => exact h
  | cons _ _ _ h _ _ => exact h

theorem Reach.snoc {ok : Point_2d → Prop} {a b c : Point_2d} (h : Reach ok a b)
    (hn : c ∈ neighbours b) (hc : ok c) : Reach ok a c := by
  induction h with
  | refl a ha => exact Reach.cons a c c ha hn (Reach.refl c hc)
  | cons a b d ha hab _ ih => exact Reach.cons a b c ha hab (ih hn)

theorem Reach.last_ok {ok : Point_2d → Prop} {a c : Point_2d} (h : Reach ok a c) : ok c := by
  induction h with
  | refl _ h => exact h
  | cons _ _ _ _ _ _ ih => exact ih

/-- A path that exists before cell `t` stops satisfying `ok` either survives or
can be re-entered from a neighbour of `t`. -/
theorem Reach.avoid {ok ok' : Point_2d → Prop} {t a c : Point_2d}
    (hsame : ∀ q, q ≠ t → ok q → ok' q) (h : Reach ok a c) (hc : c ≠ t) :
    Reach ok' a c ∨ ∃ n, n ∈ neighbours t ∧ Reach ok' n c := by
  induction h with
  | refl a ha => exact Or.inl (Reach.refl a (hsame a hc ha))
  | cons a b c ha hab _ ih =>
    rcases ih hc with h1 | h2
    · by_cases hat : a = t
      · subst hat
        exact Or.inr ⟨b, hab, h1⟩
      · exact Or.inl (Reach.cons a b c (hsame a hat ha) hab h1)
    · exact Or.inr h2

/-! ## The fill loop keeps its invariants -/

theorem floodBody_cons (layer : TileLayer) (p : Pattern) (s : Int) (m : Map)
    (top : Point_2d) (rest : List Point_2d) :
    floodBody layer p s ⟨m, top :: rest⟩ =
      ⟨m.setIndex top.x top.y layer (p.wrapped top),
        floodPush (m.setIndex top.x top.y layer (p.wrapped top)) layer s top rest⟩ := rfl

theorem floodBody_nil (layer : TileLayer) (p : Pattern) (s : Int) (m : Map) :
    floodBody layer p s ⟨m, []⟩ = ⟨m, []⟩ := rfl

theorem mem_floodPush {m : Map} {layer : TileLayer} {s : Int} {top q : Point_2d}
    {stack : List Point_2d} :
    q ∈ floodPush m layer s top stack ↔
      (q ∈ neighbours top ∧ holds m layer s q) ∨ q ∈ stack := by
  rw [floodPush_eq]
  simp [holds]

theorem FloodInv.inv_init (m : Map) (layer : TileLayer) (p : Pattern) (seed : Point_2d)
    (hin : m.inBounds seed = true) :
    FloodInv m layer p (m.indexAt layer seed) seed ⟨m, [seed]⟩ where
  width_eq := rfl
  height_eq := rfl
  frame := fun _ _ => Or.inl rfl
  stack_comp := by
    intro q hq
    simp at hq
    subst hq
    exact Reach.refl _ ⟨hin, rfl⟩

theorem FloodInv.inBounds_eq {m0 : Map} {layer : TileLayer} {p : Pattern} {s : Int}
    {seed : Point_2d} {st : FloodState} (h : FloodInv m0 layer p s seed st) (q : Point_2d) :
    st.map.inBounds q = m0.inBounds q := by
  simp [Map.inBounds, h.width_eq, h.height_eq]

theorem FloodInv.body_step {m0 : Map} {layer : TileLayer} {p : Pattern} {s : Int}
    {seed : Point_2d} {st : FloodState} (h : FloodInv m0 layer p s seed st) :
    FloodInv m0 layer p s seed (floodBody layer p s st) := by
  obtain ⟨m, stack⟩ := st
  cases stack with
  | nil => exact h
  | cons top rest =>
    rw [floodBody_cons]
    have htop : Component m0 layer s seed top := h.stack_comp top (by simp)
    have hframe : ∀ x y,
        (m.setIndex top.x top.y layer (p.wrapped top)).cells x y = m0.cells x y ∨
        (Component m0 layer s seed ⟨x, y⟩ ∧
          (m.setIndex top.x top.y layer (p.wrapped top)).cells x y
            = (m0.cells x y).setIndex layer (p.wrapped ⟨x, y⟩)) := by
      intro x y
      rw [Map.cells_setIndex]
      by_cases hxy : x = top.x ∧ y = top.y
      · obtain ⟨hx, hy⟩ := hxy
        subst hx hy
        simp only [and_self, if_true]
        right
        refine ⟨htop, ?_⟩
        rcases h.frame top.x top.y with h1 | ⟨_, h2⟩
        · have : m.cells top.x top.y = m0.cells top.x top.y := h1
          rw [this]
        · have : m.cells top.x top.y
              = (m0.cells top.x top.y).setIndex layer (p.wrapped ⟨top.x, top.y⟩) := h2
          rw [this, Cell.setIndex_setIndex]
      · rw [if_neg hxy]
        exact h.frame x y
    refine ⟨h.width_eq, h.height_eq, hframe, ?_⟩
    intro q hq
    rcases mem_floodPush.mp hq with ⟨hn, hin, hidx⟩ | hr
    · rcases hframe q.x q.y with h1 | ⟨h2, _⟩
      · refine Reach.snoc htop hn ⟨?_, ?_⟩
        · have hq := h.inBounds_eq q
          have hin2 : m.inBounds q = true := hin
          rw [← hq]; exact hin2
        · have : (m.setIndex top.x top.y layer (p.wrapped top)).indexAt layer q
              = m0.indexAt layer q := by
            simp only [Map.indexAt, Map.getCellByGridCoords]
            rw [h1]
          rw [← this]; exact hidx
      · exact h2
    · exact h.stack_comp q (by simp [hr])

theorem FloodInv.iterate {m0 : Map} {layer : TileLayer} {p : Pattern} {s : Int}
    {seed : Point_2d} {st : FloodState} (h : FloodInv m0 layer p s seed st) (n : Nat) :
    FloodInv m0 layer p s seed ((floodBody layer p s)^[n] st) := by
  induction n with
  | zero => exact h
  | succ k ih =>
    rw [Function.iterate_succ_apply']
    exact ih.body_step

theorem floodLoop_eq_iterate (layer : TileLayer) (p : Pattern) (s : Int) (fuel : Nat)
    (st : FloodState) (m1 : Map) (h : floodLoop layer p s fuel st = some m1) :
    ∃ n, ((floodBody layer p s)^[n] st).map = m1 ∧ ((floodBody layer p s)^[n] st).stack = [] := by
  induction fuel generalizing st with
  | zero =>
    obtain ⟨m, stack⟩ := st
    cases stack with
    | nil => exact ⟨0, by simpa [floodLoop] using h, rfl⟩
    | cons a t => simp [floodLoop] at h
  | succ k ih =>
    obtain ⟨m, stack⟩ := st
    cases stack with
    | nil => exact ⟨0, by simpa [floodLoop] using h, rfl⟩
    | cons a t =>
      simp only [floodLoop] at h
      obtain ⟨n, hn1, hn2⟩ := ih _ h
      exact ⟨n + 1, by simpa [Function.iterate_succ_apply] using hn1,
        by simpa [Function.iterate_succ_apply] using hn2⟩

/-! ## Progress of the fill loop when no written value equals the seed value -/

theorem Component.inBounds {m0 : Map} {layer : TileLayer} {s : Int} {seed q : Point_2d}
    (h : Component m0 layer s seed q) : m0.inBounds q = true :=
  (Reach.last_ok h).1

theorem holds_setIndex_iff {m : Map} {layer : TileLayer} {s v : Int} {top q : Point_2d}
    (hv : v ≠ s) :
    holds (m.setIndex top.x top.y layer v) layer s q ↔ q ≠ top ∧ holds m layer s q := by
  unfold holds
  rw [Map.inBounds_setIndex]
  by_cases hq : q = top
  · subst hq
    rw [Map.indexAt_setIndex_self]
    simp [hv]
  · rw [Map.indexAt_setIndex_ne _ _ _ _ _ hq]
    simp [hq]

theorem FloodProgress.progress_init (m : Map) (layer : TileLayer) (seed : Point_2d) :
    FloodProgress m layer (m.indexAt layer seed) seed ⟨m, [seed]⟩ where
  pending := fun c hc => Or.inr ⟨seed, by simp, hc⟩
  order := by
    intro l1 r l2 hsplit hr
    have hlen := congrArg List.length hsplit
    simp at hlen
    have h1 : l1 = [] := List.length_eq_zero.mp (by omega)
    subst h1
    simp at hsplit
    exact absurd (hsplit.1 ▸ rfl) hr

theorem FloodProgress.progress_step {m0 : Map} {layer : TileLayer} {p : Pattern} {s : Int}
    {seed : Point_2d} {st : FloodState} (hinv : FloodInv m0 layer p s seed st)
    (h : FloodProgress m0 layer s seed st)
    (hpat : ∀ q, Component m0 layer s seed q → p.wrapped q ≠ s) :
    FloodProgress m0 layer s seed (floodBody layer p s st) := by
  obtain ⟨m, stack⟩ := st
  cases stack with
  | nil => exact h
  | cons top rest =>
    rw [floodBody_cons]
    have htop : Component m0 layer s seed top := hinv.stack_comp top (by simp)
    have hv : p.wrapped top ≠ s := hpat top htop
    constructor
    · intro c hc
      by_cases hidx : (m.setIndex top.x top.y layer (p.wrapped top)).indexAt layer c = s
      · right
        have hctop : c ≠ top := by
          rintro rfl
          rw [Map.indexAt_setIndex_self] at hidx
          exact hv hidx
        have hold : m.indexAt layer c = s := by
          rw [Map.indexAt_setIndex_ne _ _ _ _ _ hctop] at hidx
          exact hidx
        rcases h.pending c hc with h1 | ⟨q, hq, hreach⟩
        · exact absurd hold h1
        · have hsame : ∀ q, q ≠ top → holds m layer s q →
              holds (m.setIndex top.x top.y layer (p.wrapped top)) layer s q :=
            fun q hq1 hq2 => (holds_setIndex_iff hv).mpr ⟨hq1, hq2⟩
          rcases Reach.avoid hsame hreach hctop with h2 | ⟨n, hn, h3⟩
          · have hqtop : q ≠ top := ((holds_setIndex_iff hv).mp h2.head_ok).1
            have hqrest : q ∈ rest := by
              simp only [List.mem_cons] at hq
              rcases hq with hq | hq
              · exact absurd hq hqtop
              · exact hq
            exact ⟨q, mem_floodPush.mpr (Or.inr hqrest), h2⟩
          · exact ⟨n, mem_floodPush.mpr (Or.inl ⟨hn, h3.head_ok⟩), h3⟩
      · exact Or.inl hidx
    · intro l1 r l2 hsplit hr n hn hholds
      rw [floodPush_eq] at hsplit
      simp only at hsplit
      have hcase1 : ∀ a', l1 = ((neighbours top).filter (fun c =>
            decide ((m.setIndex top.x top.y layer (p.wrapped top)).inBounds c = true ∧
              (m.setIndex top.x top.y layer (p.wrapped top)).indexAt layer c = s))).reverse ++ a' →
            rest = a' ++ r :: l2 → n ∈ l1 := by
        intro a' hl1 hrest
        rw [hl1]
        by_cases hrtop : r = top
        · subst hrtop
          apply List.mem_append_left
          simp only [List.mem_reverse, List.mem_filter, decide_eq_true_eq]
          exact ⟨hn, hholds⟩
        · apply List.mem_append_right
          have hr2 : m.indexAt layer r ≠ s := by
            rw [Map.indexAt_setIndex_ne _ _ _ _ _ hrtop] at hr
            exact hr
          obtain ⟨hntop, hnold⟩ := (holds_setIndex_iff hv).mp hholds
          have := h.order (top :: a') r l2 (by simp [hrest]) hr2 n hn hnold
          simp only [List.mem_cons] at this
          rcases this with h1 | h1
          · exact absurd h1 hntop
          · exact h1
      rcases List.append_eq_append_iff.mp hsplit with ⟨a', h1, h2⟩ | ⟨c', h1, h2⟩
      · exact hcase1 a' h1 h2
      · cases c' with
        | nil =>
          simp only [List.append_nil, List.nil_append] at h1 h2
          exact hcase1 [] (by rw [List.append_nil]; exact h1.symm) h2.symm
        | cons x c'' =>
          simp only [List.cons_append, List.cons.injEq] at h2
          obtain ⟨hrx, _⟩ := h2
          subst hrx
          have hmem : r ∈ ((neighbours top).filter (fun c =>
            decide ((m.setIndex top.x top.y layer (p.wrapped top)).inBounds c = true ∧
              (m.setIndex top.x top.y layer (p.wrapped top)).indexAt layer c = s))).reverse := by
            rw [h1]; simp
          simp only [List.mem_reverse, List.mem_filter, decide_eq_true_eq] at hmem
          exact absurd hmem.2.2 hr

theorem seedCount_setIndex_le (m : Map) (layer : TileLayer) (s v : Int) (top : Point_2d)
    (hv : v ≠ s) : seedCount (m.setIndex top.x top.y layer v) layer s ≤ seedCount m layer s := by
  unfold seedCount
  apply Finset.card_le_card
  intro q hq
  simp only [Finset.mem_filter, Map.width_setIndex, Map.height_setIndex] at hq ⊢
  refine ⟨hq.1, ?_⟩
  by_cases hqt : (⟨q.1, q.2⟩ : Point_2d) = top
  · rw [hqt, Map.indexAt_setIndex_self] at hq
    exact absurd hq.2 hv
  · rw [Map.indexAt_setIndex_ne _ _ _ _ _ hqt] at hq
    exact hq.2

theorem seedCount_setIndex_lt (m : Map) (layer : TileLayer) (s v : Int) (top : Point_2d)
    (hv : v ≠ s) (hin : m.inBounds top = true) (hs : m.indexAt layer top = s) :
    seedCount (m.setIndex top.x top.y layer v) layer s < seedCount m layer s := by
  unfold seedCount
  apply Finset.card_lt_card
  rw [Finset.ssubset_iff_of_subset]
  · refine ⟨(top.x, top.y), ?_, ?_⟩
    · rw [Map.inBounds_iff] at hin
      simp only [Finset.mem_filter, Finset.mem_product, Finset.mem_Ico]
      exact ⟨⟨⟨hin.1, hin.2.1⟩, hin.2.2.1, hin.2.2.2⟩, hs⟩
    · simp only [Finset.mem_filter, not_and]
      intro _
      have := Map.indexAt_setIndex_self m top layer v
      intro h2
      exact hv (this ▸ h2)
  · intro q hq
    simp only [Finset.mem_filter, Map.width_setIndex, Map.height_setIndex] at hq ⊢
    refine ⟨hq.1, ?_⟩
    by_cases hqt : (⟨q.1, q.2⟩ : Point_2d) = top
    · rw [hqt, Map.indexAt_setIndex_self] at hq
      exact absurd hq.2 hv
    · rw [Map.indexAt_setIndex_ne _ _ _ _ _ hqt] at hq
      exact hq.2

theorem floodPush_length_le (m : Map) (layer : TileLayer) (s : Int) (top : Point_2d)
    (stack : List Point_2d) : (floodPush m layer s top stack).length ≤ stack.length + 4 := by
  rw [floodPush_eq, List.length_append, List.length_reverse]
  have := List.length_filter_le
    (fun c => decide (m.inBounds c = true ∧ m.indexAt layer c = s)) (neighbours top)
  rw [neighbours_length] at this
  omega

theorem floodMeasure_step {m0 : Map} {layer : TileLayer} {p : Pattern} {s : Int}
    {seed : Point_2d} {m : Map} {top : Point_2d} {rest : List Point_2d}
    (hinv : FloodInv m0 layer p s seed ⟨m, top :: rest⟩)
    (h : FloodProgress m0 layer s seed ⟨m, top :: rest⟩)
    (hpat : ∀ q, Component m0 layer s seed q → p.wrapped q ≠ s) :
    floodMeasure layer s (floodBody layer p s ⟨m, top :: rest⟩)
      < floodMeasure layer s ⟨m, top :: rest⟩ := by
  have htop : Component m0 layer s seed top := hinv.stack_comp top (by simp)
  have hv : p.wrapped top ≠ s := hpat top htop
  rw [floodBody_cons]
  unfold floodMeasure
  simp only [List.length_cons]
  by_cases hs : m.indexAt layer top = s
  · have hin : m.inBounds top = true := by
      have := hinv.inBounds_eq top
      simp only at this
      rw [this]; exact htop.inBounds
    have h1 := seedCount_setIndex_lt m layer s _ top hv hin hs
    have h2 := floodPush_length_le (m.setIndex top.x top.y layer (p.wrapped top)) layer s top rest
    omega
  · have h1 := seedCount_setIndex_le m layer s _ top hv
    have h2 : floodPush (m.setIndex top.x top.y layer (p.wrapped top)) layer s top rest = rest := by
      rw [floodPush_eq]
      have : (neighbours top).filter (fun c =>
            decide ((m.setIndex top.x top.y layer (p.wrapped top)).inBounds c = true ∧
              (m.setIndex top.x top.y layer (p.wrapped top)).indexAt layer c = s)) = [] := by
        rw [List.filter_eq_nil_iff]
        intro n hn hh
        simp only [decide_eq_true_eq] at hh
        have hold := ((holds_setIndex_iff hv).mp hh).2
        have := h.order [] top rest rfl hs n hn hold
        simp at this
      rw [this]; rfl
    rw [h2]
    omega

/-! ## Termination and result of the fill loop -/

theorem floodLoop_add (layer : TileLayer) (p : Pattern) (s : Int) (n k : Nat) (st : FloodState)
    (m1 : Map) (h : floodLoop layer p s n st = some m1) :
    floodLoop layer p s (n + k) st = some m1 := by
  induction n generalizing st with
  | zero =>
    obtain ⟨m, stack⟩ := st
    cases stack with
    | nil => cases k <;> simpa [floodLoop] using h
    | cons a t => simp [floodLoop] at h
  | succ j ih =>
    obtain ⟨m, stack⟩ := st
    cases stack with
    | nil => simpa [floodLoop, Nat.succ_add] using h
    | cons a t =>
      rw [Nat.succ_add]
      simp only [floodLoop] at h ⊢
      exact ih _ h

theorem floodWritten_add (layer : TileLayer) (p : Pattern) (s : Int) (n k : Nat)
    (st : FloodState) (m1 : Map) (h : floodLoop layer p s n st = some m1) :
    floodWritten layer p s (n + k) st = floodWritten layer p s n st := by
  induction n generalizing st with
  | zero =>
    obtain ⟨m, stack⟩ := st
    cases stack with
    | nil => cases k <;> simp [floodWritten]
    | cons a t => simp [floodLoop] at h
  | succ j ih =>
    obtain ⟨m, stack⟩ := st
    cases stack with
    | nil => simp [floodWritten, Nat.succ_add]
    | cons a t =>
      rw [Nat.succ_add]
      simp only [floodLoop] at h
      simp only [floodWritten]
      rw [ih _ h]

theorem floodLoop_terminates {m0 : Map} {layer : TileLayer} {p : Pattern} {s : Int}
    {seed : Point_2d} (hpat : ∀ q, Component m0 layer s seed q → p.wrapped q ≠ s) :
    ∀ (k : Nat) (st : FloodState), floodMeasure layer s st ≤ k →
      FloodInv m0 layer p s seed st → FloodProgress m0 layer s seed st →
      ∃ n m1, floodLoop layer p s n st = some m1 ∧
        FloodInv m0 layer p s seed ⟨m1, []⟩ ∧ FloodProgress m0 layer s seed ⟨m1, []⟩ ∧
        (∀ q ∈ floodWritten layer p s n st, Component m0 layer s seed q) ∧
        (∀ c, Component m0 layer s seed c → st.map.indexAt layer c = s →
          c ∈ floodWritten layer p s n st) := by
  intro k
  induction k with
  | zero =>
    intro st hk hinv hprog
    obtain ⟨m, stack⟩ := st
    cases stack with
    | nil =>
      refine ⟨0, m, rfl, hinv, hprog, by simp [floodWritten], ?_⟩
      intro c hc hs
      rcases hprog.pending c hc with h1 | ⟨q, hq, _⟩
      · exact absurd hs h1
      · simp at hq
    | cons a t => simp [floodMeasure] at hk
  | succ j ih =>
    intro st hk hinv hprog
    obtain ⟨m, stack⟩ := st
    cases stack with
    | nil =>
      refine ⟨0, m, rfl, hinv, hprog, by simp [floodWritten], ?_⟩
      intro c hc hs
      rcases hprog.pending c hc with h1 | ⟨q, hq, _⟩
      · exact absurd hs h1
      · simp at hq
    | cons top rest =>
      have hlt := floodMeasure_step hinv hprog hpat
      obtain ⟨n, m1, h1, h2, h3, h4, h5⟩ :=
        ih (floodBody layer p s ⟨m, top :: rest⟩) (by omega) hinv.body_step (hprog.progress_step hinv hpat)
      refine ⟨n + 1, m1, by simpa [floodLoop] using h1, h2, h3, ?_, ?_⟩
      · intro q hq
        simp only [floodWritten, List.mem_cons] at hq
        rcases hq with hq | hq
        · rw [hq]; exact hinv.stack_comp top (by simp)
        · exact h4 q hq
      · intro c hc hs
        simp only [floodWritten, List.mem_cons]
        by_cases hct : c = top
        · exact Or.inl hct
        · right
          apply h5 c hc
          rw [floodBody_cons]
          simp only
          rw [Map.indexAt_setIndex_ne _ _ _ _ _ hct]
          exact hs

/-! ## The claims about the contiguous fill -/

/-- C1: contiguous fill from an in-bounds seed holding `s`, with a pattern of
width and height at least 1 whose wrapped value differs from `s` at the seed and
at every cell of the seed's 4-connected component `C` of `s`-valued cells,
terminates (every large enough iteration budget gives the same final map); the
set of cells it writes is exactly `C` (so it has `|C|` elements), and every cell
`(x, y)` of `C` ends holding `pattern.value(x mod width, y mod height)`. -/
theorem C1_patternFill_Contig_fills_component (p : Pattern) (m : Map) (layer : TileLayer)
    (seed : Point_2d) (hw : 1 ≤ p.width) (hh : 1 ≤ p.height)
    (hin : m.inBounds seed = true)
    (_hseed : m.indexAt layer seed ≠ p.value (seed.x % p.width) (seed.y % p.height))
    (hpat : ∀ q, Component m layer (m.indexAt layer seed) seed q →
      p.value (q.x % p.width) (q.y % p.height) ≠ m.indexAt layer seed) :
    ∃ fuel m1,
      (∀ k, patternFill_Contig (fuel + k) p m layer seed (m.indexAt layer seed) = some m1) ∧
      (∀ k q, q ∈ patternFill_ContigWritten (fuel + k) p m layer seed (m.indexAt layer seed) ↔
        Component m layer (m.indexAt layer seed) seed q) ∧
      (patternFill_ContigWritten fuel p m layer seed (m.indexAt layer seed)).toFinset.card
        = Set.ncard {q | Component m layer (m.indexAt layer seed) seed q} ∧
      (∀ q, Component m layer (m.indexAt layer seed) seed q →
        m1.indexAt layer q = p.value (q.x % p.width) (q.y % p.height)) := by
  have hwrap : ∀ q, Component m layer (m.indexAt layer seed) seed q →
      p.wrapped q = p.value (q.x % p.width) (q.y % p.height) := by
    intro q hq
    have hb := (Map.inBounds_iff m q).mp hq.inBounds
    exact Pattern.wrapped_eq_emod p q hw hh hb.1 hb.2.2.1
  have hseedC : Component m layer (m.indexAt layer seed) seed seed := Reach.refl _ ⟨hin, rfl⟩
  have hpat2 : ∀ q, Component m layer (m.indexAt layer seed) seed q →
      p.wrapped q ≠ m.indexAt layer seed := fun q hq => by rw [hwrap q hq]; exact hpat q hq
  have hguard : ¬ m.indexAt layer seed = p.wrapped seed := fun h => hpat2 seed hseedC h.symm
  obtain ⟨n, m1, h1, h2, h3, h4, h5⟩ := floodLoop_terminates hpat2 _ ⟨m, [seed]⟩ le_rfl
    (FloodInv.inv_init m layer p seed hin) (FloodProgress.progress_init m layer seed)
  have hmem : ∀ q, q ∈ floodWritten layer p (m.indexAt layer seed) n ⟨m, [seed]⟩ ↔
      Component m layer (m.indexAt layer seed) seed q :=
    fun q => ⟨h4 q, fun hq => h5 q hq (Reach.last_ok hq).2⟩
  refine ⟨n, m1, ?_, ?_, ?_, ?_⟩
  · intro k
    unfold patternFill_Contig
    rw [if_neg hguard]
    exact floodLoop_add _ _ _ _ _ _ _ h1
  · intro k q
    unfold patternFill_ContigWritten
    rw [if_neg hguard, floodWritten_add _ _ _ _ _ _ _ h1]
    exact hmem q
  · unfold patternFill_ContigWritten
    rw [if_neg hguard, ← Set.ncard_coe_Finset]
    congr 1
    ext q
    simp [hmem q]
  · intro q hq
    rcases h3.pending q hq with h6 | ⟨r, hr, _⟩
    · rcases h2.frame q.x q.y with h7 | ⟨_, h8⟩
      · exfalso
        apply h6
        have : m1.cells q.x q.y = m.cells q.x q.y := h7
        simp only [Map.indexAt, Map.getCellByGridCoords]
        rw [this]
        exact (Reach.last_ok hq).2
      · have : m1.cells q.x q.y = (m.cells q.x q.y).setIndex layer (p.wrapped ⟨q.x, q.y⟩) := h8
        simp only [Map.indexAt, Map.getCellByGridCoords]
        rw [this, Cell.index_setIndex, if_pos rfl]
        exact hwrap q hq
    · simp at hr

/-- C2: for every map, every pattern and every in-bounds seed, after any number
of iterations of the fill loop (and so in any final map the fill returns) every
cell outside the 4-connected component of seed-valued cells containing the seed
is exactly as before, and no cell has another layer, its blocked flag or its
link changed. -/
theorem C2_patternFill_Contig_frame (p : Pattern) (m : Map) (layer : TileLayer)
    (seed : Point_2d) (hin : m.inBounds seed = true) :
    (∀ n : Nat,
      (∀ q, ¬ Component m layer (m.indexAt layer seed) seed q →
        (((floodBody layer p (m.indexAt layer seed))^[n] ⟨m, [seed]⟩).map.cells q.x q.y
          = m.cells q.x q.y)) ∧
      (∀ x y l, l ≠ layer →
        (((floodBody layer p (m.indexAt layer seed))^[n] ⟨m, [seed]⟩).map.cells x y).index l
          = (m.cells x y).index l) ∧
      (∀ x y,
        (((floodBody layer p (m.indexAt layer seed))^[n] ⟨m, [seed]⟩).map.cells x y).blocked
          = (m.cells x y).blocked ∧
        (((floodBody layer p (m.indexAt layer seed))^[n] ⟨m, [seed]⟩).map.cells x y).link
          = (m.cells x y).link)) ∧
    (∀ fuel m1, patternFill_Contig fuel p m layer seed (m.indexAt layer seed) = some m1 →
      (∀ q, ¬ Component m layer (m.indexAt layer seed) seed q →
        m1.cells q.x q.y = m.cells q.x q.y) ∧
      (∀ x y l, l ≠ layer → (m1.cells x y).index l = (m.cells x y).index l) ∧
      (∀ x y, (m1.cells x y).blocked = (m.cells x y).blocked ∧
        (m1.cells x y).link = (m.cells x y).link)) := by
  have key : ∀ st : FloodState, FloodInv m layer p (m.indexAt layer seed) seed st →
      (∀ q, ¬ Component m layer (m.indexAt layer seed) seed q →
        st.map.cells q.x q.y = m.cells q.x q.y) ∧
      (∀ x y l, l ≠ layer → (st.map.cells x y).index l = (m.cells x y).index l) ∧
      (∀ x y, (st.map.cells x y).blocked = (m.cells x y).blocked ∧
        (st.map.cells x y).link = (m.cells x y).link) := by
    intro st hinv
    refine ⟨?_, ?_, ?_⟩
    · intro q hq
      rcases hinv.frame q.x q.y with h1 | ⟨h2, _⟩
      · exact h1
      · exact absurd h2 hq
    · intro x y l hl
      rcases hinv.frame x y with h1 | ⟨_, h2⟩
      · rw [h1]
      · rw [h2, Cell.index_setIndex, if_neg hl]
    · intro x y
      rcases hinv.frame x y with h1 | ⟨_, h2⟩
      · rw [h1]; exact ⟨rfl, rfl⟩
      · rw [h2]; exact ⟨Cell.blocked_setIndex _ _ _, (Cell.link_setIndex _ _ _).1⟩
  have hinit := FloodInv.inv_init m layer p seed hin
  refine ⟨fun n => key _ (hinit.iterate n), ?_⟩
  intro fuel m1 hfill
  unfold patternFill_Contig at hfill
  split at hfill
  · cases hfill
    exact key ⟨m, [seed]⟩ hinit
  · obtain ⟨n, hn, _⟩ := floodLoop_eq_iterate _ _ _ _ _ _ hfill
    rw [← hn]
    exact key _ (hinit.iterate n)

/-! ## A fill that never ends -/

theorem LoopInv.loop_step {st : FloodState} (h : LoopInv st) :
    LoopInv (floodBody .LAYER_BASE loopPattern 5 st) := by
  obtain ⟨m, stack⟩ := st
  obtain ⟨hw, hh, h0, h1, h2, hs⟩ := h
  simp only at hw hh h0 h1 h2 hs
  have e10 : (⟨1, 0⟩ : Point_2d) ≠ ⟨0, 0⟩ := by decide
  have e20 : (⟨2, 0⟩ : Point_2d) ≠ ⟨0, 0⟩ := by decide
  have e01 : (⟨0, 0⟩ : Point_2d) ≠ ⟨1, 0⟩ := by decide
  have e21 : (⟨2, 0⟩ : Point_2d) ≠ ⟨1, 0⟩ := by decide
  have e02 : (⟨0, 0⟩ : Point_2d) ≠ ⟨2, 0⟩ := by decide
  have e12 : (⟨1, 0⟩ : Point_2d) ≠ ⟨2, 0⟩ := by decide
  rcases hs with hs | hs
  · subst hs
    rw [floodBody_cons]
    have hv : loopPattern.wrapped ⟨1, 0⟩ = 5 := by decide
    rw [hv]
    have i0 := Map.indexAt_setIndex_ne m ⟨1, 0⟩ ⟨0, 0⟩ .LAYER_BASE 5 e01
    have i1 := Map.indexAt_setIndex_self m ⟨1, 0⟩ .LAYER_BASE 5
    have i2 := Map.indexAt_setIndex_ne m ⟨1, 0⟩ ⟨2, 0⟩ .LAYER_BASE 5 e21
    simp only at i0 i1 i2
    refine ⟨hw, hh, by rw [i0]; exact h0, i1, by rw [i2]; exact h2, Or.inr ?_⟩
    simp [floodPush, neighbours, dX, dY, Map.inBounds, Map.width_setIndex, Map.height_setIndex,
      hw, hh, i0, i2, h0, h2]
  · subst hs
    rw [floodBody_cons]
    have hv : loopPattern.wrapped ⟨2, 0⟩ = 5 := by decide
    rw [hv]
    have i0 := Map.indexAt_setIndex_ne m ⟨2, 0⟩ ⟨0, 0⟩ .LAYER_BASE 5 e02
    have i1 := Map.indexAt_setIndex_ne m ⟨2, 0⟩ ⟨1, 0⟩ .LAYER_BASE 5 e12
    have i2 := Map.indexAt_setIndex_self m ⟨2, 0⟩ .LAYER_BASE 5
    simp only at i0 i1 i2
    refine ⟨hw, hh, by rw [i0]; exact h0, by rw [i1]; exact h1, i2, Or.inl ?_⟩
    simp [floodPush, neighbours, dX, dY, Map.inBounds, Map.width_setIndex, Map.height_setIndex,
      hw, hh, i1, h1]

theorem LoopInv.floodLoop_none (fuel : Nat) :
    ∀ st : FloodState, LoopInv st → floodLoop .LAYER_BASE loopPattern 5 fuel st = none := by
  induction fuel with
  | zero =>
    intro st h
    obtain ⟨m, stack⟩ := st
    rcases h.2.2.2.2.2 with hs | hs <;> simp only at hs <;> subst hs <;> rfl
  | succ k ih =>
    intro st h
    have h2 := ih _ h.loop_step
    obtain ⟨m, stack⟩ := st
    rcases h.2.2.2.2.2 with hs | hs <;> simp only at hs <;> subst hs <;> exact h2

theorem LoopInv.first : LoopInv (floodBody .LAYER_BASE loopPattern 5 ⟨loopMap, [⟨0, 0⟩]⟩) := by
  refine ⟨rfl, rfl, by decide, by decide, by decide, Or.inl (by decide)⟩

theorem StripeInv.stripe_step {st : FloodState} (h : StripeInv st) :
    StripeInv (floodBody .LAYER_BASE stripePattern 5 st) := by
  obtain ⟨m, stack⟩ := st
  obtain ⟨hw, hh, hA, hB, hs⟩ := h
  simp only at hw hh hA hB hs
  cases stack with
  | nil => simp at hs
  | cons top rest =>
    rw [floodBody_cons]
    have hA1 : (m.setIndex top.x top.y .LAYER_BASE (stripePattern.wrapped top)).indexAt
        .LAYER_BASE ⟨0, 1⟩ = 5 := by
      by_cases ht : (⟨0, 1⟩ : Point_2d) = top
      · subst ht
        rw [Map.indexAt_setIndex_self]
        decide
      · rw [Map.indexAt_setIndex_ne _ _ _ _ _ ht]
        exact hA
    have hB1 : (m.setIndex top.x top.y .LAYER_BASE (stripePattern.wrapped top)).indexAt
        .LAYER_BASE ⟨1, 1⟩ = 5 := by
      by_cases ht : (⟨1, 1⟩ : Point_2d) = top
      · subst ht
        rw [Map.indexAt_setIndex_self]
        decide
      · rw [Map.indexAt_setIndex_ne _ _ _ _ _ ht]
        exact hB
    have hinA : (m.setIndex top.x top.y .LAYER_BASE (stripePattern.wrapped top)).inBounds
        ⟨0, 1⟩ = true := by
      rw [Map.inBounds_setIndex, Map.inBounds_iff, hw, hh]
      decide
    have hinB : (m.setIndex top.x top.y .LAYER_BASE (stripePattern.wrapped top)).inBounds
        ⟨1, 1⟩ = true := by
      rw [Map.inBounds_setIndex, Map.inBounds_iff, hw, hh]
      decide
    refine ⟨hw, hh, hA1, hB1, ?_⟩
    by_cases htA : top = ⟨0, 1⟩
    · right
      subst htA
      exact mem_floodPush.mpr
        (Or.inl ⟨(by decide : (⟨1, 1⟩ : Point_2d) ∈ neighbours ⟨0, 1⟩), hinB, hB1⟩)
    · by_cases htB : top = ⟨1, 1⟩
      · left
        subst htB
        exact mem_floodPush.mpr
          (Or.inl ⟨(by decide : (⟨0, 1⟩ : Point_2d) ∈ neighbours ⟨1, 1⟩), hinA, hA1⟩)
      · rcases hs with hs | hs
        · left
          refine mem_floodPush.mpr (Or.inr ?_)
          simp only [List.mem_cons] at hs
          rcases hs with hs | hs
          · exact absurd hs.symm htA
          · exact hs
        · right
          refine mem_floodPush.mpr (Or.inr ?_)
          simp only [List.mem_cons] at hs
          rcases hs with hs | hs
          · exact absurd hs.symm htB
          · exact hs

theorem StripeInv.stack_ne_nil {st : FloodState} (h : StripeInv st) : st.stack ≠ [] := by
  intro hnil
  have := h.2.2.2.2
  rw [hnil] at this
  simp at this

theorem StripeInv.stripe_none (fuel : Nat) :
    ∀ st : FloodState, StripeInv st → floodLoop .LAYER_BASE stripePattern 5 fuel st = none := by
  induction fuel with
  | zero =>
    intro st h
    obtain ⟨m, stack⟩ := st
    cases stack with
    | nil => exact absurd rfl h.stack_ne_nil
    | cons a t => rfl
  | succ k ih =>
    intro st h
    have h2 := ih _ h.stripe_step
    obtain ⟨m, stack⟩ := st
    cases stack with
    | nil => exact absurd rfl h.stack_ne_nil
    | cons a t => exact h2

theorem StripeInv.stripe_first :
    StripeInv (floodBody .LAYER_BASE stripePattern 5 ⟨stripeMap, [⟨0, 0⟩]⟩) := by
  refine ⟨rfl, rfl, by decide, by decide, Or.inl (by decide)⟩

/-- C3 (failing input): on the 3 x 1 map whose cells all hold 5, with the
pattern 7, 5, 5 and the in-bounds seed (0, 0), the seed guard passes (the
pattern holds 7 there) and the fill loop never empties its stack: no iteration
budget makes `patternFill_Contig` return.  The same happens on the 10 x 10 map
of 5s with the pattern of two distinct tiles, 7 above 5, seeded at (0, 0). -/
theorem C3_patternFill_Contig_diverges :
    loopMap.inBounds ⟨0, 0⟩ = true ∧
    loopMap.indexAt .LAYER_BASE ⟨0, 0⟩ = 5 ∧
    loopPattern.wrapped ⟨0, 0⟩ = 7 ∧
    (∀ fuel, patternFill_Contig fuel loopPattern loopMap .LAYER_BASE ⟨0, 0⟩
      (loopMap.indexAt .LAYER_BASE ⟨0, 0⟩) = none) ∧
    (∀ n, ((floodBody .LAYER_BASE loopPattern 5)^[n] ⟨loopMap, [⟨0, 0⟩]⟩).stack ≠ []) ∧
    stripeMap.inBounds ⟨0, 0⟩ = true ∧
    stripeMap.indexAt .LAYER_BASE ⟨0, 0⟩ = 5 ∧
    stripePattern.wrapped ⟨0, 0⟩ = 7 ∧
    (∀ fuel, patternFill_Contig fuel stripePattern stripeMap .LAYER_BASE ⟨0, 0⟩
      (stripeMap.indexAt .LAYER_BASE ⟨0, 0⟩) = none) := by
  refine ⟨by decide, by decide, by decide, ?_, ?_, by decide, by decide, by decide, ?_⟩
  rotate_left 2
  · intro fuel
    have hs : stripeMap.indexAt .LAYER_BASE ⟨0, 0⟩ = 5 := by decide
    rw [hs]
    unfold patternFill_Contig
    rw [if_neg (by decide)]
    cases fuel with
    | zero => rfl
    | succ k => exact StripeInv.stripe_none k _ StripeInv.stripe_first
  · intro fuel
    have hs : loopMap.indexAt .LAYER_BASE ⟨0, 0⟩ = 5 := by decide
    rw [hs]
    unfold patternFill_Contig
    rw [if_neg (by decide)]
    cases fuel with
    | zero => rfl
    | succ k => exact LoopInv.floodLoop_none k _ LoopInv.first
  · intro n
    cases n with
    | zero => simp
    | succ k =>
      have hinv : LoopInv ((floodBody .LAYER_BASE loopPattern 5)^[k + 1] ⟨loopMap, [⟨0, 0⟩]⟩) := by
        induction k with
        | zero => exact LoopInv.first
        | succ j ih =>
          rw [Function.iterate_succ_apply']
          exact ih.loop_step
      rcases hinv.2.2.2.2.2 with h | h <;> rw [h] <;> simp

/-! ## The seed guard -/

/-- C4: when the pattern's wrapped value at the seed equals the seed cell's
index, `patternFill_Contig` returns at once with the map as it was and writes
no cell, for every iteration budget; applying the fill again to the result is
again the identity. -/
theorem C4_patternFill_Contig_guard_noop (fuel : Nat) (p : Pattern) (m : Map)
    (layer : TileLayer) (seed : Point_2d) (h : p.wrapped seed = m.indexAt layer seed) :
    patternFill_Contig fuel p m layer seed (m.indexAt layer seed) = some m ∧
    patternFill_ContigWritten fuel p m layer seed (m.indexAt layer seed) = [] ∧
    ((patternFill_Contig fuel p m layer seed (m.indexAt layer seed)).bind
      (fun m1 => patternFill_Contig fuel p m1 layer seed (m1.indexAt layer seed))) = some m := by
  have h1 : patternFill_Contig fuel p m layer seed (m.indexAt layer seed) = some m := by
    unfold patternFill_Contig
    rw [if_pos h.symm]
  refine ⟨h1, ?_, ?_⟩
  · unfold patternFill_ContigWritten
    rw [if_pos h.symm]
  · rw [h1]
    exact h1

/-- C4 at a concrete input: the 1 x 1 pattern holding 5 on the map of 5s. -/
theorem C4_patternFill_Contig_guard_noop_witness :
    (⟨1, 1, fun _ _ => 5⟩ : Pattern).wrapped ⟨0, 0⟩ = loopMap.indexAt .LAYER_BASE ⟨0, 0⟩ ∧
    patternFill_Contig 0 ⟨1, 1, fun _ _ => 5⟩ loopMap .LAYER_BASE ⟨0, 0⟩
      (loopMap.indexAt .LAYER_BASE ⟨0, 0⟩) = some loopMap :=
  ⟨by decide,
    (C4_patternFill_Contig_guard_noop 0 ⟨1, 1, fun _ _ => 5⟩ loopMap .LAYER_BASE ⟨0, 0⟩
      (by decide)).1⟩

/-- C1 at a concrete input: the 1 x 1 pattern holding 7 on the 3 x 1 map of 5s,
seeded at (0, 0). -/
theorem C1_patternFill_Contig_fills_component_witness :
    loopMap.inBounds ⟨0, 0⟩ = true ∧
    loopMap.indexAt .LAYER_BASE ⟨0, 0⟩ ≠ exPattern.value (0 % 1) (0 % 1) ∧
    ∃ fuel m1,
      (∀ k, patternFill_Contig (fuel + k) exPattern loopMap .LAYER_BASE ⟨0, 0⟩
        (loopMap.indexAt .LAYER_BASE ⟨0, 0⟩) = some m1) ∧
      (∀ q, Component loopMap .LAYER_BASE (loopMap.indexAt .LAYER_BASE ⟨0, 0⟩) ⟨0, 0⟩ q →
        m1.indexAt .LAYER_BASE q = 7) := by
  refine ⟨by decide, by decide, ?_⟩
  obtain ⟨fuel, m1, h1, _, _, h4⟩ :=
    C1_patternFill_Contig_fills_component exPattern loopMap .LAYER_BASE ⟨0, 0⟩
      (by decide) (by decide) (by decide) (by decide)
      (fun _ _ => by show (7 : Int) ≠ 5; decide)
  exact ⟨fuel, m1, h1, h4⟩

/-- C2 at a concrete input: two iterations of the fill of `loopMap` with the
pattern 7, 5, 5 leave the detail layer of cell (1, 0) alone. -/
theorem C2_patternFill_Contig_frame_witness :
    loopMap.inBounds ⟨0, 0⟩ = true ∧
    ((((floodBody .LAYER_BASE loopPattern (loopMap.indexAt .LAYER_BASE ⟨0, 0⟩))^[2]
        ⟨loopMap, [⟨0, 0⟩]⟩).map.cells 1 0).index .LAYER_DETAIL
      = (loopMap.cells 1 0).index .LAYER_DETAIL) :=
  ⟨by decide,
    ((C2_patternFill_Contig_frame loopPattern loopMap .LAYER_BASE ⟨0, 0⟩ (by decide)).1 2).2.1
      1 0 .LAYER_DETAIL (by decide)⟩

/-! ## Loops of writes -/

theorem foldl_inv {σ ι : Type} (Q : σ → Prop) (f : σ → ι → σ)
    (hf : ∀ acc i, Q acc → Q (f acc i)) (l : List ι) (init : σ) (h0 : Q init) :
    Q (l.foldl f init) := by
  induction l generalizing init with
  | nil => exact h0
  | cons a t ih => exact ih _ (hf _ _ h0)

/-- A loop of passes, each of which applies the same idempotent update `upd` to
the cells it selects, applies `upd` once to every cell some pass selects and
leaves the others alone. -/
theorem foldl_cells_pass {ι : Type} (I : Map → Prop) (g : Map → ι → Map)
    (P : ι → Int → Int → Prop) (upd : Int → Int → Cell → Cell)
    (hidem : ∀ a b c, upd a b (upd a b c) = upd a b c)
    (hI : ∀ acc i, I acc → I (g acc i))
    (hg : ∀ acc i a b, I acc →
      (P i a b → (g acc i).cells a b = upd a b (acc.cells a b)) ∧
      (¬ P i a b → (g acc i).cells a b = acc.cells a b)) :
    ∀ (rows : List ι) (m : Map), I m → ∀ a b,
      ((∃ i ∈ rows, P i a b) → (rows.foldl g m).cells a b = upd a b (m.cells a b)) ∧
      ((¬ ∃ i ∈ rows, P i a b) → (rows.foldl g m).cells a b = m.cells a b) := by
  intro rows
  induction rows with
  | nil =>
    intro m _ a b
    simp
  | cons i rest ih =>
    intro m hm a b
    have h1 := ih (g m i) (hI m i hm) a b
    have h2 := hg m i a b hm
    simp only [List.foldl_cons]
    by_cases hP : P i a b
    · constructor
      · intro _
        by_cases hex : ∃ j ∈ rest, P j a b
        · rw [h1.1 hex, h2.1 hP, hidem]
        · rw [h1.2 hex, h2.1 hP]
      · intro hno
        exact absurd ⟨i, by simp, hP⟩ hno
    · constructor
      · intro hex
        have hex2 : ∃ j ∈ rest, P j a b := by
          obtain ⟨j, hj, hPj⟩ := hex
          simp only [List.mem_cons] at hj
          rcases hj with hj | hj
          · subst hj; exact absurd hPj hP
          · exact ⟨j, hj, hPj⟩
        rw [h1.1 hex2, h2.2 hP]
      · intro hno
        have hno2 : ¬ ∃ j ∈ rest, P j a b := by
          rintro ⟨j, hj, hPj⟩
          exact hno ⟨j, by simp [hj], hPj⟩
        rw [h1.2 hno2, h2.2 hP]

/-! ## Whole-map fill -/

theorem patternFillRow_width (layer : TileLayer) (p : Pattern) (m : Map) (row : Int) :
    (patternFillRow layer p m row).width = m.width := by
  unfold patternFillRow
  exact foldl_inv (fun (acc : Map) => acc.width = m.width) _ (fun acc i h => by
    show (acc.setIndex _ _ _ _).width = m.width
    rw [Map.width_setIndex]; exact h) _ _ rfl

theorem patternFillRow_cells (layer : TileLayer) (p : Pattern) (m : Map) (row : Int) (a b : Int) :
    ((∃ col ∈ List.range m.width.toNat, a = (col : Int) ∧ b = row) →
      (patternFillRow layer p m row).cells a b
        = (m.cells a b).setIndex layer (p.value (a.tmod p.width) (b.tmod p.height))) ∧
    ((¬ ∃ col ∈ List.range m.width.toNat, a = (col : Int) ∧ b = row) →
      (patternFillRow layer p m row).cells a b = m.cells a b) := by
  unfold patternFillRow
  refine foldl_cells_pass (fun _ => True)
    (fun acc (col : Nat) =>
      acc.setIndex col row layer (p.value ((col : Int).tmod p.width) (row.tmod p.height)))
    (fun col a b => a = (col : Int) ∧ b = row)
    (fun a b c => c.setIndex layer (p.value (a.tmod p.width) (b.tmod p.height)))
    (fun a b c => Cell.setIndex_setIndex _ _ _ _) (fun _ _ _ => trivial) ?_ _ m trivial a b
  intro acc col a b _
  simp only [Map.cells_setIndex]
  constructor
  · rintro ⟨ha, hb⟩
    subst ha hb
    simp
  · intro hne
    rw [if_neg hne]

theorem patternFill_cells (layer : TileLayer) (p : Pattern) (m : Map) (a b : Int) :
    ((0 ≤ a ∧ a < m.width ∧ 0 ≤ b ∧ b < m.height) →
      (patternFill layer p m).cells a b
        = (m.cells a b).setIndex layer (p.value (a.tmod p.width) (b.tmod p.height))) ∧
    ((¬ (0 ≤ a ∧ a < m.width ∧ 0 ≤ b ∧ b < m.height)) →
      (patternFill layer p m).cells a b = m.cells a b) := by
  have key := foldl_cells_pass (fun acc => acc.width = m.width)
    (fun acc (row : Nat) => patternFillRow layer p acc row)
    (fun row a b => ∃ col ∈ List.range m.width.toNat, a = (col : Int) ∧ b = (row : Int))
    (fun a b c => c.setIndex layer (p.value (a.tmod p.width) (b.tmod p.height)))
    (fun a b c => Cell.setIndex_setIndex _ _ _ _)
    (fun acc row h => by
      show (patternFillRow layer p acc row).width = m.width
      rw [patternFillRow_width]; exact h)
    (fun acc row a b h => by
      have := patternFillRow_cells layer p acc row a b
      rw [h] at this
      exact this)
    (List.range m.height.toNat) m rfl a b
  have hiff : (∃ row ∈ List.range m.height.toNat,
      ∃ col ∈ List.range m.width.toNat, a = (col : Int) ∧ b = (row : Int)) ↔
      (0 ≤ a ∧ a < m.width ∧ 0 ≤ b ∧ b < m.height) := by
    constructor
    · rintro ⟨row, hrow, col, hcol, ha, hb⟩
      simp only [List.mem_range] at hrow hcol
      omega
    · rintro ⟨h1, h2, h3, h4⟩
      refine ⟨b.toNat, ?_, a.toNat, ?_, ?_, ?_⟩
      · simp only [List.mem_range]; omega
      · simp only [List.mem_range]; omega
      · omega
      · omega
  unfold patternFill
  rw [← hiff]
  exact key

/-- C7: whole-map fill with a pattern of width `w >= 1` and height `h >= 1`
leaves every cell `(col, row)` of the map equal to what it was except that its
tile index in the given layer is `pattern.value(col mod w, row mod h)`: the
other layers, the blocked flag and the link are unchanged, whatever the map held
and wherever the cursor is.  Nothing outside the map is written and only the
map member of the editor changes. -/
theorem C7_patternFill_tiles_whole_map (s : EditorState) (layer : TileLayer)
    (hw : 1 ≤ s.mTilePalette.pattern.width) (hh : 1 ≤ s.mTilePalette.pattern.height) :
    (∀ col row, 0 ≤ col → col < s.mMap.width → 0 ≤ row → row < s.mMap.height →
      (s.patternFill layer).mMap.cells col row
        = (s.mMap.cells col row).setIndex layer
            (s.mTilePalette.pattern.value (col % s.mTilePalette.pattern.width)
              (row % s.mTilePalette.pattern.height)) ∧
      ((s.patternFill layer).mMap.cells col row).index layer
        = s.mTilePalette.pattern.value (col % s.mTilePalette.pattern.width)
            (row % s.mTilePalette.pattern.height) ∧
      (∀ l, l ≠ layer →
        ((s.patternFill layer).mMap.cells col row).index l = (s.mMap.cells col row).index l)) ∧
    (∀ a b, ¬ (0 ≤ a ∧ a < s.mMap.width ∧ 0 ≤ b ∧ b < s.mMap.height) →
      (s.patternFill layer).mMap.cells a b = s.mMap.cells a b) ∧
    (s.patternFill layer) = { s with mMap := (s.patternFill layer).mMap } := by
  refine ⟨?_, ?_, rfl⟩
  · intro col row h1 h2 h3 h4
    have h := (patternFill_cells layer s.mTilePalette.pattern s.mMap col row).1 ⟨h1, h2, h3, h4⟩
    rw [Int.tmod_eq_emod h1 (by omega), Int.tmod_eq_emod h3 (by omega)] at h
    have h5 : (s.patternFill layer).mMap.cells col row
        = (s.mMap.cells col row).setIndex layer
            (s.mTilePalette.pattern.value (col % s.mTilePalette.pattern.width)
              (row % s.mTilePalette.pattern.height)) := h
    refine ⟨h5, ?_, ?_⟩
    · rw [h5, Cell.index_setIndex, if_pos rfl]
    · intro l hl
      rw [h5, Cell.index_setIndex, if_neg hl]
  · intro a b hab
    exact (patternFill_cells layer s.mTilePalette.pattern s.mMap a b).2 hab

/-! ## Stamp loops -/

theorem stampLoop_inv {σ : Type} (Q : σ → Prop) (_p : Pattern) (_pt : Point_2d)
    (write : σ → Int → Int → Int → Int → σ)
    (hstep : ∀ acc (col row : Nat), col < _p.width.toNat → row < _p.height.toNat →
      0 ≤ _pt.x - ((_p.width - 1) - col) → 0 ≤ _pt.y - ((_p.height - 1) - row) → Q acc →
      Q (write acc (_pt.x - ((_p.width - 1) - col)) (_pt.y - ((_p.height - 1) - row)) col row))
    (init : σ) (h0 : Q init) : Q (stampLoop _p _pt write init) := by
  unfold stampLoop
  have houter : ∀ (rows : List Nat), (∀ r ∈ rows, r < _p.height.toNat) → ∀ acc, Q acc →
      Q (rows.foldl
        (fun acc (row : Nat) =>
          (List.range _p.width.toNat).foldl
            (fun acc2 (col : Nat) =>
              if _pt.x - ((_p.width - 1) - col) ≥ 0 ∧ _pt.y - ((_p.height - 1) - row) ≥ 0 then
                write acc2 (_pt.x - ((_p.width - 1) - col)) (_pt.y - ((_p.height - 1) - row))
                  col row
              else acc2)
            acc) acc) := by
    intro rows
    induction rows with
    | nil => intro _ acc h; exact h
    | cons row rest ih =>
      intro hrows acc hacc
      simp only [List.foldl_cons]
      apply ih (fun r hr => hrows r (by simp [hr]))
      have hrow : row < _p.height.toNat := hrows row (by simp)
      have hinner : ∀ (cols : List Nat), (∀ c ∈ cols, c < _p.width.toNat) → ∀ acc2, Q acc2 →
          Q (cols.foldl
            (fun acc2 (col : Nat) =>
              if _pt.x - ((_p.width - 1) - col) ≥ 0 ∧ _pt.y - ((_p.height - 1) - row) ≥ 0 then
                write acc2 (_pt.x - ((_p.width - 1) - col)) (_pt.y - ((_p.height - 1) - row))
                  col row
              else acc2) acc2) := by
        intro cols
        induction cols with
        | nil => intro _ acc2 h; exact h
        | cons col rest2 ih2 =>
          intro hcols acc2 hacc2
          simp only [List.foldl_cons]
          apply ih2 (fun c hc => hcols c (by simp [hc]))
          split
          · rename_i hg
            exact hstep acc2 col row (hcols col (by simp)) hrow hg.1 hg.2 hacc2
          · exact hacc2
      exact hinner _ (fun c hc => List.mem_range.mp hc) acc hacc
  exact houter _ (fun r hr => List.mem_range.mp hr) init h0

/-- Every write of the stamp loops has a target with non-negative coordinates that
is the brush cell `(col, row)` anchored bottom-right on the cursor cell. -/
theorem stampWrites_spec (_p : Pattern) (_pt : Point_2d) :
    ∀ t ∈ stampWrites _p _pt,
      0 ≤ t.1 ∧ 0 ≤ t.2.1 ∧
      0 ≤ t.2.2.1 ∧ t.2.2.1 < _p.width ∧ 0 ≤ t.2.2.2 ∧ t.2.2.2 < _p.height ∧
      t.1 = _pt.x - ((_p.width - 1) - t.2.2.1) ∧ t.2.1 = _pt.y - ((_p.height - 1) - t.2.2.2) := by
  unfold stampWrites
  apply stampLoop_inv
    (fun (log : List (Int × Int × Int × Int)) => ∀ t ∈ log,
      0 ≤ t.1 ∧ 0 ≤ t.2.1 ∧
      0 ≤ t.2.2.1 ∧ t.2.2.1 < _p.width ∧ 0 ≤ t.2.2.2 ∧ t.2.2.2 < _p.height ∧
      t.1 = _pt.x - ((_p.width - 1) - t.2.2.1) ∧ t.2.1 = _pt.y - ((_p.height - 1) - t.2.2.2))
  · intro acc col row hcol hrow hx hy hacc t ht
    simp only [List.mem_append, List.mem_singleton] at ht
    rcases ht with ht | ht
    · exact hacc t ht
    · subst ht
      refine ⟨hx, hy, ?_, ?_, ?_, ?_, rfl, rfl⟩ <;> simp only <;> omega
  · intro t ht
    simp at ht

/-- The stamp loops do exactly the writes of their log, in order. -/
theorem stampLoop_eq_foldl_stampWrites {σ : Type} (_p : Pattern) (_pt : Point_2d)
    (write : σ → Int → Int → Int → Int → σ) (init : σ) :
    stampLoop _p _pt write init
      = (stampWrites _p _pt).foldl (fun acc t => write acc t.1 t.2.1 t.2.2.1 t.2.2.2) init := by
  unfold stampWrites stampLoop
  have hinner : ∀ (row : Nat) (cols : List Nat) (acc : σ) (log : List (Int × Int × Int × Int)),
      ∃ ext,
        cols.foldl
          (fun (lg : List (Int × Int × Int × Int)) (col : Nat) =>
            if _pt.x - ((_p.width - 1) - col) ≥ 0 ∧ _pt.y - ((_p.height - 1) - row) ≥ 0 then
              lg ++ [(_pt.x - ((_p.width - 1) - col), _pt.y - ((_p.height - 1) - row),
                (col : Int), (row : Int))]
            else lg) log = log ++ ext ∧
        cols.foldl
          (fun acc2 (col : Nat) =>
            if _pt.x - ((_p.width - 1) - col) ≥ 0 ∧ _pt.y - ((_p.height - 1) - row) ≥ 0 then
              write acc2 (_pt.x - ((_p.width - 1) - col)) (_pt.y - ((_p.height - 1) - row))
                col row
            else acc2) acc
          = ext.foldl (fun acc t => write acc t.1 t.2.1 t.2.2.1 t.2.2.2) acc := by
    intro row cols
    induction cols with
    | nil => intro acc log; exact ⟨[], by simp, rfl⟩
    | cons col rest ih =>
      intro acc log
      simp only [List.foldl_cons]
      by_cases hg : _pt.x - ((_p.width - 1) - col) ≥ 0 ∧ _pt.y - ((_p.height - 1) - row) ≥ 0
      · rw [if_pos hg, if_pos hg]
        obtain ⟨ext, h1, h2⟩ := ih
          (write acc (_pt.x - ((_p.width - 1) - col)) (_pt.y - ((_p.height - 1) - row)) col row)
          (log ++ [(_pt.x - ((_p.width - 1) - col), _pt.y - ((_p.height - 1) - row),
            (col : Int), (row : Int))])
        refine ⟨(_pt.x - ((_p.width - 1) - col), _pt.y - ((_p.height - 1) - row),
            (col : Int), (row : Int)) :: ext, ?_, ?_⟩
        · rw [h1]; simp
        · rw [h2]; rfl
      · rw [if_neg hg, if_neg hg]
        exact ih acc log
  have houter : ∀ (rows : List Nat) (acc : σ) (log : List (Int × Int × Int × Int)),
      ∃ ext,
        rows.foldl
          (fun (lg0 : List (Int × Int × Int × Int)) (row : Nat) =>
            (List.range _p.width.toNat).foldl
              (fun (lg : List (Int × Int × Int × Int)) (col : Nat) =>
                if _pt.x - ((_p.width - 1) - col) ≥ 0 ∧ _pt.y - ((_p.height - 1) - row) ≥ 0 then
                  lg ++ [(_pt.x - ((_p.width - 1) - col), _pt.y - ((_p.height - 1) - row),
                    (col : Int), (row : Int))]
                else lg) lg0) log = log ++ ext ∧
        rows.foldl
          (fun acc0 (row : Nat) =>
            (List.range _p.width.toNat).foldl
              (fun acc2 (col : Nat) =>
                if _pt.x - ((_p.width - 1) - col) ≥ 0 ∧ _pt.y - ((_p.height - 1) - row) ≥ 0 then
                  write acc2 (_pt.x - ((_p.width - 1) - col)) (_pt.y - ((_p.height - 1) - row))
                    col row
                else acc2) acc0) acc
          = ext.foldl (fun acc t => write acc t.1 t.2.1 t.2.2.1 t.2.2.2) acc := by
    intro rows
    induction rows with
    | nil => intro acc log; exact ⟨[], by simp, rfl⟩
    | cons row rest ih =>
      intro acc log
      simp only [List.foldl_cons]
      obtain ⟨ext1, h1, h2⟩ := hinner row (List.range _p.width.toNat) acc log
      rw [h1, h2]
      obtain ⟨ext2, h3, h4⟩ := ih
        (ext1.foldl (fun acc t => write acc t.1 t.2.1 t.2.2.1 t.2.2.2) acc) (log ++ ext1)
      refine ⟨ext1 ++ ext2, ?_, ?_⟩
      · rw [h3]; simp
      · rw [h4, List.foldl_append]
  obtain ⟨ext, h1, h2⟩ := houter (List.range _p.height.toNat) init []
  rw [h1, h2]
  simp

/-- The cells of the map after stamp loops whose write applies an idempotent update
`upd` to its target: updated once where some brush cell lands on a non-negative
coordinate, untouched elsewhere. -/
theorem stampLoop_cells (_p : Pattern) (_pt : Point_2d) (upd : Int → Int → Cell → Cell)
    (hidem : ∀ a b c, upd a b (upd a b c) = upd a b c)
    (write : Map → Int → Int → Int → Int → Map)
    (hwrite : ∀ (m : Map) (col row : Nat) (a b : Int),
      (write m (_pt.x - ((_p.width - 1) - col)) (_pt.y - ((_p.height - 1) - row))
          col row).cells a b
        = if a = _pt.x - ((_p.width - 1) - col) ∧ b = _pt.y - ((_p.height - 1) - row)
          then upd a b (m.cells a b) else m.cells a b)
    (m : Map) (a b : Int) :
    ((∃ col row : Int, 0 ≤ col ∧ col < _p.width ∧ 0 ≤ row ∧ row < _p.height ∧
        a = _pt.x - ((_p.width - 1) - col) ∧ b = _pt.y - ((_p.height - 1) - row) ∧
        0 ≤ a ∧ 0 ≤ b) →
      (stampLoop _p _pt write m).cells a b = upd a b (m.cells a b)) ∧
    ((¬ ∃ col row : Int, 0 ≤ col ∧ col < _p.width ∧ 0 ≤ row ∧ row < _p.height ∧
        a = _pt.x - ((_p.width - 1) - col) ∧ b = _pt.y - ((_p.height - 1) - row) ∧
        0 ≤ a ∧ 0 ≤ b) →
      (stampLoop _p _pt write m).cells a b = m.cells a b) := by
  have hin : ∀ (row : Nat) (acc : Map) (a b : Int),
      ((∃ col ∈ List.range _p.width.toNat,
          (_pt.x - ((_p.width - 1) - col) ≥ 0 ∧ _pt.y - ((_p.height - 1) - row) ≥ 0) ∧
          a = _pt.x - ((_p.width - 1) - col) ∧ b = _pt.y - ((_p.height - 1) - row)) →
        ((List.range _p.width.toNat).foldl
          (fun acc2 (col : Nat) =>
            if _pt.x - ((_p.width - 1) - col) ≥ 0 ∧ _pt.y - ((_p.height - 1) - row) ≥ 0 then
              write acc2 (_pt.x - ((_p.width - 1) - col)) (_pt.y - ((_p.height - 1) - row))
                col row
            else acc2) acc).cells a b = upd a b (acc.cells a b)) ∧
      ((¬ ∃ col ∈ List.range _p.width.toNat,
          (_pt.x - ((_p.width - 1) - col) ≥ 0 ∧ _pt.y - ((_p.height - 1) - row) ≥ 0) ∧
          a = _pt.x - ((_p.width - 1) - col) ∧ b = _pt.y - ((_p.height - 1) - row)) →
        ((List.range _p.width.toNat).foldl
          (fun acc2 (col : Nat) =>
            if _pt.x - ((_p.width - 1) - col) ≥ 0 ∧ _pt.y - ((_p.height - 1) - row) ≥ 0 then
              write acc2 (_pt.x - ((_p.width - 1) - col)) (_pt.y - ((_p.height - 1) - row))
                col row
            else acc2) acc).cells a b = acc.cells a b) := by
    intro row acc a b
    refine foldl_cells_pass (fun _ => True) _
      (fun (col : Nat) a b =>
        (_pt.x - ((_p.width - 1) - col) ≥ 0 ∧ _pt.y - ((_p.height - 1) - row) ≥ 0) ∧
        a = _pt.x - ((_p.width - 1) - col) ∧ b = _pt.y - ((_p.height - 1) - row))
      upd hidem (fun _ _ _ => trivial) ?_ _ acc trivial a b
    intro acc2 col a2 b2 _
    simp only
    by_cases hg : _pt.x - ((_p.width - 1) - col) ≥ 0 ∧ _pt.y - ((_p.height - 1) - row) ≥ 0
    · rw [if_pos hg, hwrite]
      constructor
      · rintro ⟨_, hab⟩
        rw [if_pos hab]
      · intro hne
        rw [if_neg (fun hab => hne ⟨hg, hab⟩)]
    · rw [if_neg hg]
      constructor
      · rintro ⟨hg2, _⟩
        exact absurd hg2 hg
      · intro _; rfl
  have key := foldl_cells_pass (fun _ => True)
    (fun acc (row : Nat) =>
      (List.range _p.width.toNat).foldl
        (fun acc2 (col : Nat) =>
          if _pt.x - ((_p.width - 1) - col) ≥ 0 ∧ _pt.y - ((_p.height - 1) - row) ≥ 0 then
            write acc2 (_pt.x - ((_p.width - 1) - col)) (_pt.y - ((_p.height - 1) - row))
              col row
          else acc2) acc)
    (fun (row : Nat) a b => ∃ col ∈ List.range _p.width.toNat,
      (_pt.x - ((_p.width - 1) - col) ≥ 0 ∧ _pt.y - ((_p.height - 1) - row) ≥ 0) ∧
      a = _pt.x - ((_p.width - 1) - col) ∧ b = _pt.y - ((_p.height - 1) - row))
    upd hidem (fun _ _ _ => trivial)
    (fun acc row a2 b2 _ => hin row acc a2 b2)
    (List.range _p.height.toNat) m trivial a b
  have hiff : (∃ row ∈ List.range _p.height.toNat, ∃ col ∈ List.range _p.width.toNat,
      (_pt.x - ((_p.width - 1) - col) ≥ 0 ∧ _pt.y - ((_p.height - 1) - row) ≥ 0) ∧
      a = _pt.x - ((_p.width - 1) - col) ∧ b = _pt.y - ((_p.height - 1) - row)) ↔
      (∃ col row : Int, 0 ≤ col ∧ col < _p.width ∧ 0 ≤ row ∧ row < _p.height ∧
        a = _pt.x - ((_p.width - 1) - col) ∧ b = _pt.y - ((_p.height - 1) - row) ∧
        0 ≤ a ∧ 0 ≤ b) := by
    constructor
    · rintro ⟨row, hrow, col, hcol, ⟨hx, hy⟩, ha, hb⟩
      simp only [List.mem_range] at hrow hcol
      refine ⟨col, row, by omega, by omega, by omega, by omega, ha, hb, by omega, by omega⟩
    · rintro ⟨col, row, h1, h2, h3, h4, ha, hb, h5, h6⟩
      refine ⟨row.toNat, ?_, col.toNat, ?_, ⟨?_, ?_⟩, ?_, ?_⟩
      · simp only [List.mem_range]; omega
      · simp only [List.mem_range]; omega
      · rw [Int.toNat_of_nonneg h1]; omega
      · rw [Int.toNat_of_nonneg h3]; omega
      · rw [Int.toNat_of_nonneg h1]; exact ha
      · rw [Int.toNat_of_nonneg h3]; exact hb
  unfold stampLoop
  rw [← hiff]
  exact key

/-! ## Stamps -/

theorem Map.cells_setBlocked (m : Map) (x y : Int) (v : Bool) (a b : Int) :
    (m.setBlocked x y v).cells a b =
      if a = x ∧ b = y then (m.cells x y).setBlocked v else m.cells a b := rfl

theorem Cell.setBlocked_setBlocked (c : Cell) (v w : Bool) :
    (c.setBlocked v).setBlocked w = c.setBlocked w := rfl

theorem Cell.index_setBlocked (c : Cell) (v : Bool) (l : TileLayer) :
    (c.setBlocked v).index l = c.index l := by
  cases l <;> rfl

theorem pattern_cells (s : EditorState) (layer : TileLayer) (value : Int) (a b : Int) :
    ((∃ col row : Int, 0 ≤ col ∧ col < (s.stampBrush value).width ∧
        0 ≤ row ∧ row < (s.stampBrush value).height ∧
        a = s.cursorCell.x - (((s.stampBrush value).width - 1) - col) ∧
        b = s.cursorCell.y - (((s.stampBrush value).height - 1) - row) ∧ 0 ≤ a ∧ 0 ≤ b) →
      (s.pattern layer value).mMap.cells a b
        = (s.mMap.cells a b).setIndex layer
            (if value ≥ 0 then
              (s.stampBrush value).value (a - s.cursorCell.x + ((s.stampBrush value).width - 1))
                (b - s.cursorCell.y + ((s.stampBrush value).height - 1))
             else -1)) ∧
    ((¬ ∃ col row : Int, 0 ≤ col ∧ col < (s.stampBrush value).width ∧
        0 ≤ row ∧ row < (s.stampBrush value).height ∧
        a = s.cursorCell.x - (((s.stampBrush value).width - 1) - col) ∧
        b = s.cursorCell.y - (((s.stampBrush value).height - 1) - row) ∧ 0 ≤ a ∧ 0 ≤ b) →
      (s.pattern layer value).mMap.cells a b = s.mMap.cells a b) := by
  refine stampLoop_cells (s.stampBrush value) s.cursorCell
    (fun a b c => c.setIndex layer
      (if value ≥ 0 then
        (s.stampBrush value).value (a - s.cursorCell.x + ((s.stampBrush value).width - 1))
          (b - s.cursorCell.y + ((s.stampBrush value).height - 1))
       else -1))
    (fun a b c => Cell.setIndex_setIndex _ _ _ _) _ ?_ s.mMap a b
  intro m col row a2 b2
  have e1 : s.cursorCell.x - (((s.stampBrush value).width - 1) - col) - s.cursorCell.x
      + ((s.stampBrush value).width - 1) = col := by omega
  have e2 : s.cursorCell.y - (((s.stampBrush value).height - 1) - row) - s.cursorCell.y
      + ((s.stampBrush value).height - 1) = row := by omega
  by_cases hv : value ≥ 0
  · simp only [if_pos hv, Map.cells_setIndex]
    by_cases hab : a2 = s.cursorCell.x - (((s.stampBrush value).width - 1) - col) ∧
        b2 = s.cursorCell.y - (((s.stampBrush value).height - 1) - row)
    · rw [if_pos hab, if_pos hab]
      obtain ⟨ha, hb⟩ := hab
      subst ha hb
      rw [e1, e2]
    · rw [if_neg hab, if_neg hab]
  · simp only [if_neg hv, Map.cells_setIndex]
    by_cases hab : a2 = s.cursorCell.x - (((s.stampBrush value).width - 1) - col) ∧
        b2 = s.cursorCell.y - (((s.stampBrush value).height - 1) - row)
    · rw [if_pos hab, if_pos hab]
      obtain ⟨ha, hb⟩ := hab
      subst ha hb
      rfl
    · rw [if_neg hab, if_neg hab]

theorem pattern_collision_cells (s : EditorState) (a b : Int) :
    ((∃ col row : Int, 0 ≤ col ∧ col < s.mToolBar.brush.width ∧
        0 ≤ row ∧ row < s.mToolBar.brush.height ∧
        a = s.cursorCell.x - ((s.mToolBar.brush.width - 1) - col) ∧
        b = s.cursorCell.y - ((s.mToolBar.brush.height - 1) - row) ∧ 0 ≤ a ∧ 0 ≤ b) →
      s.pattern_collision.mMap.cells a b = (s.mMap.cells a b).setBlocked s.mPlacingCollision) ∧
    ((¬ ∃ col row : Int, 0 ≤ col ∧ col < s.mToolBar.brush.width ∧
        0 ≤ row ∧ row < s.mToolBar.brush.height ∧
        a = s.cursorCell.x - ((s.mToolBar.brush.width - 1) - col) ∧
        b = s.cursorCell.y - ((s.mToolBar.brush.height - 1) - row) ∧ 0 ≤ a ∧ 0 ≤ b) →
      s.pattern_collision.mMap.cells a b = s.mMap.cells a b) := by
  refine stampLoop_cells s.mToolBar.brush s.cursorCell
    (fun _ _ c => c.setBlocked s.mPlacingCollision)
    (fun a b c => Cell.setBlocked_setBlocked _ _ _) _ ?_ s.mMap a b
  intro m col row a2 b2
  simp only [Map.cells_setBlocked]
  by_cases hab : a2 = s.cursorCell.x - ((s.mToolBar.brush.width - 1) - col) ∧
      b2 = s.cursorCell.y - ((s.mToolBar.brush.height - 1) - row)
  · rw [if_pos hab, if_pos hab]
    obtain ⟨ha, hb⟩ := hab
    subst ha hb
    rfl
  · rw [if_neg hab, if_neg hab]

/-- C5: the stamp `EditorState::pattern(layer, value)` uses as brush `B` the
palette pattern for the pencil (`value >= 0`) and the toolbar brush for the
eraser (`value < 0`).  With cursor cell `(cx, cy)`, for every brush cell
`0 <= col < w`, `0 <= row < h` whose target `x = cx - (w-1-col)`,
`y = cy - (h-1-row)` is non-negative, the cell `(x, y)` is afterwards what it
was except that its index in the layer is `B.value(col, row)` for the pencil
and `-1` for the eraser; every other cell is unchanged, and so is every member
of the editor but the map. -/
theorem C5_pattern_stamp (s : EditorState) (layer : TileLayer) (value : Int) :
    (0 ≤ value → s.stampBrush value = s.mTilePalette.pattern) ∧
    (value < 0 → s.stampBrush value = s.mToolBar.brush) ∧
    (∀ col row : Int, 0 ≤ col → col < (s.stampBrush value).width →
      0 ≤ row → row < (s.stampBrush value).height →
      0 ≤ s.cursorCell.x - (((s.stampBrush value).width - 1) - col) →
      0 ≤ s.cursorCell.y - (((s.stampBrush value).height - 1) - row) →
      (s.pattern layer value).mMap.cells
          (s.cursorCell.x - (((s.stampBrush value).width - 1) - col))
          (s.cursorCell.y - (((s.stampBrush value).height - 1) - row))
        = (s.mMap.cells
            (s.cursorCell.x - (((s.stampBrush value).width - 1) - col))
            (s.cursorCell.y - (((s.stampBrush value).height - 1) - row))).setIndex layer
              (if 0 ≤ value then (s.stampBrush value).value col row else -1)) ∧
    (∀ a b : Int,
      (¬ ∃ col row : Int, 0 ≤ col ∧ col < (s.stampBrush value).width ∧
        0 ≤ row ∧ row < (s.stampBrush value).height ∧
        a = s.cursorCell.x - (((s.stampBrush value).width - 1) - col) ∧
        b = s.cursorCell.y - (((s.stampBrush value).height - 1) - row) ∧ 0 ≤ a ∧ 0 ≤ b) →
      (s.pattern layer value).mMap.cells a b = s.mMap.cells a b) ∧
    s.pattern layer value = { s with mMap := (s.pattern layer value).mMap } := by
  refine ⟨?_, ?_, ?_, ?_, rfl⟩
  · intro h
    unfold EditorState.stampBrush
    rw [if_neg (by omega)]
  · intro h
    unfold EditorState.stampBrush
    rw [if_pos h]
  · intro col row h1 h2 h3 h4 h5 h6
    have h := (pattern_cells s layer value _ _).1 ⟨col, row, h1, h2, h3, h4, rfl, rfl, h5, h6⟩
    rw [h]
    have e1 : s.cursorCell.x - (((s.stampBrush value).width - 1) - col) - s.cursorCell.x
        + ((s.stampBrush value).width - 1) = col := by omega
    have e2 : s.cursorCell.y - (((s.stampBrush value).height - 1) - row) - s.cursorCell.y
        + ((s.stampBrush value).height - 1) = row := by omega
    rw [e1, e2]
  · intro a b h
    exact (pattern_cells s layer value a b).2 h

/-- C6: for every brush and every cursor cell, each write of the stamp loops has
a target with `x >= 0` and `y >= 0`; the pencil and eraser stamp and the
collision stamp perform exactly the writes of that log, and so leave every cell
with a negative coordinate as it was. -/
theorem C6_stamp_never_writes_negative (s : EditorState) (layer : TileLayer) (value : Int) :
    (∀ (_p : Pattern) (_pt : Point_2d), ∀ t ∈ stampWrites _p _pt, 0 ≤ t.1 ∧ 0 ≤ t.2.1) ∧
    (s.pattern layer value).mMap
      = (stampWrites (s.stampBrush value) s.cursorCell).foldl
          (fun m t =>
            if value ≥ 0 then
              m.setIndex t.1 t.2.1 layer ((s.stampBrush value).value t.2.2.1 t.2.2.2)
            else m.setIndex t.1 t.2.1 layer (-1))
          s.mMap ∧
    s.pattern_collision.mMap
      = (stampWrites s.mToolBar.brush s.cursorCell).foldl
          (fun m t => m.setBlocked t.1 t.2.1 s.mPlacingCollision) s.mMap ∧
    (∀ a b : Int, a < 0 ∨ b < 0 →
      (s.pattern layer value).mMap.cells a b = s.mMap.cells a b ∧
      s.pattern_collision.mMap.cells a b = s.mMap.cells a b) := by
  refine ⟨?_, ?_, ?_, ?_⟩
  · intro _p _pt t ht
    have h := stampWrites_spec _p _pt t ht
    exact ⟨h.1, h.2.1⟩
  · exact stampLoop_eq_foldl_stampWrites (s.stampBrush value) s.cursorCell
      (fun m x y col row =>
        if value ≥ 0 then m.setIndex x y layer ((s.stampBrush value).value col row)
        else m.setIndex x y layer (-1)) s.mMap
  · exact stampLoop_eq_foldl_stampWrites s.mToolBar.brush s.cursorCell
      (fun m x y _ _ => m.setBlocked x y s.mPlacingCollision) s.mMap
  · intro a b hab
    constructor
    · apply (pattern_cells s layer value a b).2
      rintro ⟨_, _, _, _, _, _, _, _, h1, h2⟩
      omega
    · apply (pattern_collision_cells s a b).2
      rintro ⟨_, _, _, _, _, _, _, _, h1, h2⟩
      omega

/-! ## Collision strokes -/

theorem Map.getCell_eq (m : Map) (pt : Point_2d) :
    m.getCell pt = m.cells (m.getGridCoords pt).x (m.getGridCoords pt).y := rfl

theorem onMouseMove_collision (fuel : Nat) (t : EditorState) (x y relX relY : Int)
    (hst : t.mEditState = .STATE_TILE_COLLISION) :
    ∃ t1, t.onMouseMove fuel x y relX relY = .ok t1 ∧
      t1.mPlacingCollision = t.mPlacingCollision ∧
      t1.mEditState = .STATE_TILE_COLLISION ∧
      t1.mLeftButtonDown = t.mLeftButtonDown ∧
      (∀ a b l, (t1.mMap.cells a b).index l = (t.mMap.cells a b).index l) := by
  unfold EditorState.onMouseMove
  by_cases hr : t.mRightButtonDown = true ∧ t.mEditState ≠ .STATE_MAP_LINK_EDIT
  · rw [if_pos hr]
    exact ⟨_, rfl, rfl, hst, rfl, fun _ _ _ => rfl⟩
  · rw [if_neg hr]
    simp only
    by_cases hl : t.mLeftButtonDown = true
    · rw [if_pos hl]
      by_cases hsup : (decide (y < 32) || t.mToolBar.flood ||
          t.mTilePalette.responding_to_events || t.mMiniMap.responding_to_events) = true
      · rw [if_pos hsup]
        exact ⟨_, rfl, rfl, hst, rfl, fun _ _ _ => rfl⟩
      · rw [if_neg hsup, if_pos hst]
        refine ⟨_, rfl, rfl, hst, rfl, ?_⟩
        intro a b l
        by_cases hc : ∃ col row : Int, 0 ≤ col ∧ col < t.mToolBar.brush.width ∧
            0 ≤ row ∧ row < t.mToolBar.brush.height ∧
            a = ({ t with mMouseCoords := ⟨x, y⟩ } : EditorState).cursorCell.x
              - ((t.mToolBar.brush.width - 1) - col) ∧
            b = ({ t with mMouseCoords := ⟨x, y⟩ } : EditorState).cursorCell.y
              - ((t.mToolBar.brush.height - 1) - row) ∧ 0 ≤ a ∧ 0 ≤ b
        · rw [(pattern_collision_cells { t with mMouseCoords := ⟨x, y⟩ } a b).1 hc]
          exact Cell.index_setBlocked _ _ _
        · rw [(pattern_collision_cells { t with mMouseCoords := ⟨x, y⟩ } a b).2 hc]
    · rw [if_neg hl]
      exact ⟨_, rfl, rfl, hst, rfl, fun _ _ _ => rfl⟩

theorem mouseMoves_collision (fuel : Nat) (moves : List (Int × Int × Int × Int)) :
    ∀ t : EditorState, t.mEditState = .STATE_TILE_COLLISION →
    ∃ t1, t.mouseMoves fuel moves = .ok t1 ∧
      t1.mPlacingCollision = t.mPlacingCollision ∧
      t1.mEditState = .STATE_TILE_COLLISION ∧
      t1.mLeftButtonDown = t.mLeftButtonDown ∧
      (∀ a b l, (t1.mMap.cells a b).index l = (t.mMap.cells a b).index l) := by
  induction moves with
  | nil =>
    intro t hst
    exact ⟨t, rfl, rfl, hst, rfl, fun _ _ _ => rfl⟩
  | cons mv rest ih =>
    intro t hst
    obtain ⟨t1, h1, h2, h3, h4, h5⟩ := onMouseMove_collision fuel t mv.1 mv.2.1 mv.2.2.1 mv.2.2.2 hst
    obtain ⟨t2, k1, k2, k3, k4, k5⟩ := ih t1 h3
    refine ⟨t2, ?_, by rw [k2, h2], k3, by rw [k4, h4], fun a b l => by rw [k5, h5]⟩
    simp only [EditorState.mouseMoves, h1]
    exact k1

/-- A mouse move that stamps in collision state writes `mPlacingCollision` to
every non-negative cell the brush covers at the new cursor cell. -/
theorem onMouseMove_collision_stamp (fuel : Nat) (t : EditorState) (x y relX relY : Int)
    (hst : t.mEditState = .STATE_TILE_COLLISION) (hl : t.mLeftButtonDown = true)
    (hr : t.mRightButtonDown = false)
    (hs : (decide (y < 32) || t.mToolBar.flood || t.mTilePalette.responding_to_events ||
      t.mMiniMap.responding_to_events) = false) :
    ∃ t1, t.onMouseMove fuel x y relX relY = .ok t1 ∧
      t1.cursorCell = t.mMap.getGridCoords ⟨x, y⟩ ∧
      (∀ col row : Int, 0 ≤ col → col < t.mToolBar.brush.width →
        0 ≤ row → row < t.mToolBar.brush.height →
        0 ≤ t1.cursorCell.x - ((t.mToolBar.brush.width - 1) - col) →
        0 ≤ t1.cursorCell.y - ((t.mToolBar.brush.height - 1) - row) →
        (t1.mMap.cells (t1.cursorCell.x - ((t.mToolBar.brush.width - 1) - col))
          (t1.cursorCell.y - ((t.mToolBar.brush.height - 1) - row))).blocked
          = t.mPlacingCollision) := by
  unfold EditorState.onMouseMove
  rw [if_neg (by simp [hr])]
  simp only
  rw [if_pos hl, hs]
  simp only [Bool.false_eq_true, if_false]
  rw [if_pos hst]
  have hstamp : ∀ (u : EditorState), u.pattern_collision.cursorCell = u.cursorCell := by
    intro u
    have := stampLoop_inv (fun (m : Map) => m.gridCoords = u.mMap.gridCoords)
      u.mToolBar.brush (u.mMap.getGridCoords u.mMouseCoords)
      (fun m x y _ _ => m.setBlocked x y u.mPlacingCollision)
      (fun acc _ _ _ _ _ _ h => h) u.mMap rfl
    have h2 := congrFun this u.mMouseCoords
    cases u
    exact congrArg (fun g => (⟨(g : Point_2d).x, g.y⟩ : Point_2d)) h2
  refine ⟨_, rfl, ?_, ?_⟩
  · rw [hstamp]; rfl
  · intro col row h1 h2 h3 h4 h5 h6
    rw [hstamp] at h5 h6 ⊢
    have h := (pattern_collision_cells { t with mMouseCoords := ⟨x, y⟩ } _ _).1
      ⟨col, row, h1, h2, h3, h4, rfl, rfl, h5, h6⟩
    rw [h]
    rfl

/-- C8: a primary-button mousedown in Collision state that passes the chrome
test, on a cursor cell with prior blocked state `b`, succeeds and leaves the
cursor cell and every non-negative cell covered by the toolbar brush (anchored
bottom-right at the cursor cell) with `blocked = !b`; it captures `!b` in
`mPlacingCollision`; after any later mouse moves of the stroke the captured
value is still `!b`, and a further move that stamps writes `!b` to every
non-negative cell the brush covers at the new cursor cell.  No tile index of
any cell changes, at the mousedown or during the moves. -/
theorem C8_collision_mousedown_toggles_and_captures (fuel : Nat) (s : EditorState) (x y : Int)
    (hstate : s.mEditState = .STATE_TILE_COLLISION)
    (hmap : s.ignoresLeftButtonDown x y = false) :
    ∃ s1, s.onMouseDown fuel .BUTTON_LEFT x y = .ok s1 ∧
      s1.mPlacingCollision = (!(s.mMap.getCell s.mMouseCoords).blocked) ∧
      (s1.mMap.cells s.cursorCell.x s.cursorCell.y).blocked
        = (!(s.mMap.getCell s.mMouseCoords).blocked) ∧
      (∀ col row : Int, 0 ≤ col → col < s.mToolBar.brush.width →
        0 ≤ row → row < s.mToolBar.brush.height →
        0 ≤ s.cursorCell.x - ((s.mToolBar.brush.width - 1) - col) →
        0 ≤ s.cursorCell.y - ((s.mToolBar.brush.height - 1) - row) →
        (s1.mMap.cells (s.cursorCell.x - ((s.mToolBar.brush.width - 1) - col))
          (s.cursorCell.y - ((s.mToolBar.brush.height - 1) - row))).blocked
          = (!(s.mMap.getCell s.mMouseCoords).blocked)) ∧
      (∀ a b l, (s1.mMap.cells a b).index l = (s.mMap.cells a b).index l) ∧
      (∀ moves : List (Int × Int × Int × Int),
        ∃ s2, s1.mouseMoves fuel moves = .ok s2 ∧
          s2.mPlacingCollision = (!(s.mMap.getCell s.mMouseCoords).blocked) ∧
          (∀ a b l, (s2.mMap.cells a b).index l = (s.mMap.cells a b).index l) ∧
          (∀ x2 y2 relX relY : Int, s2.mRightButtonDown = false →
            (decide (y2 < 32) || s2.mToolBar.flood || s2.mTilePalette.responding_to_events ||
              s2.mMiniMap.responding_to_events) = false →
            ∃ s3, s2.onMouseMove fuel x2 y2 relX relY = .ok s3 ∧
              s3.mPlacingCollision = (!(s.mMap.getCell s.mMouseCoords).blocked) ∧
              (∀ a b l, (s3.mMap.cells a b).index l = (s.mMap.cells a b).index l) ∧
              (∀ col row : Int, 0 ≤ col → col < s2.mToolBar.brush.width →
                0 ≤ row → row < s2.mToolBar.brush.height →
                0 ≤ s3.cursorCell.x - ((s2.mToolBar.brush.width - 1) - col) →
                0 ≤ s3.cursorCell.y - ((s2.mToolBar.brush.height - 1) - row) →
                (s3.mMap.cells (s3.cursorCell.x - ((s2.mToolBar.brush.width - 1) - col))
                  (s3.cursorCell.y - ((s2.mToolBar.brush.height - 1) - row))).blocked
                  = (!(s.mMap.getCell s.mMouseCoords).blocked)))) := by
  -- the state in which the collision stamp of the mousedown runs
  let g := s.mMap.getGridCoords s.mMouseCoords
  let nb : Bool := !(s.mMap.getCell s.mMouseCoords).blocked
  let s3 : EditorState :=
    { s with
      mLeftButtonDown := true,
      mFieldUndo := some s.mMap.field,
      mMap := s.mMap.setBlocked g.x g.y nb,
      mPlacingCollision := nb }
  have hrun : s.onMouseDown fuel .BUTTON_LEFT x y = .ok s3.pattern_collision := by
    simp only [EditorState.onMouseDown, EditorState.handleLeftButtonDown]
    have hig : ({ s with mLeftButtonDown := true } : EditorState).ignoresLeftButtonDown x y
        = false := hmap
    rw [hig]
    simp only [Bool.false_eq_true, if_false]
    rw [if_pos hstate]
    have hnb : ((s.mMap.setBlocked g.x g.y nb).getCell s.mMouseCoords).blocked = nb := by
      show ((s.mMap.setBlocked g.x g.y nb).cells g.x g.y).blocked = nb
      rw [Map.cells_setBlocked, if_pos ⟨rfl, rfl⟩]
      rfl
    simp only [EditorState.saveUndo]
    show Except.ok (EditorState.pattern_collision _) = Except.ok (EditorState.pattern_collision _)
    congr 2
    show (_ : EditorState) = s3
    simp only [s3]
    congr 1
  have hcur : s3.cursorCell = s.cursorCell := rfl
  have hcells : ∀ a b, s3.pattern_collision.mMap.cells a b = s.mMap.cells a b ∨
      s3.pattern_collision.mMap.cells a b = (s.mMap.cells a b).setBlocked nb := by
    intro a b
    have h3 : s3.mMap.cells a b = s.mMap.cells a b ∨
        s3.mMap.cells a b = (s.mMap.cells a b).setBlocked nb := by
      show (s.mMap.setBlocked g.x g.y nb).cells a b = _ ∨ _
      rw [Map.cells_setBlocked]
      by_cases hab : a = g.x ∧ b = g.y
      · rw [if_pos hab]; right; rw [hab.1, hab.2]
      · rw [if_neg hab]; left; rfl
    by_cases hc : ∃ col row : Int, 0 ≤ col ∧ col < s3.mToolBar.brush.width ∧
        0 ≤ row ∧ row < s3.mToolBar.brush.height ∧
        a = s3.cursorCell.x - ((s3.mToolBar.brush.width - 1) - col) ∧
        b = s3.cursorCell.y - ((s3.mToolBar.brush.height - 1) - row) ∧ 0 ≤ a ∧ 0 ≤ b
    · right
      rw [(pattern_collision_cells s3 a b).1 hc]
      rcases h3 with h | h
      · rw [h]
      · rw [h]; rfl
    · rw [(pattern_collision_cells s3 a b).2 hc]
      exact h3
  have hidx : ∀ a b l,
      (s3.pattern_collision.mMap.cells a b).index l = (s.mMap.cells a b).index l := by
    intro a b l
    rcases hcells a b with h | h
    · rw [h]
    · rw [h, Cell.index_setBlocked]
  have hst3 : s3.pattern_collision.mEditState = .STATE_TILE_COLLISION := hstate
  refine ⟨s3.pattern_collision, hrun, rfl, ?_, ?_, hidx, ?_⟩
  · by_cases hc : ∃ col row : Int, 0 ≤ col ∧ col < s3.mToolBar.brush.width ∧
        0 ≤ row ∧ row < s3.mToolBar.brush.height ∧
        s.cursorCell.x = s3.cursorCell.x - ((s3.mToolBar.brush.width - 1) - col) ∧
        s.cursorCell.y = s3.cursorCell.y - ((s3.mToolBar.brush.height - 1) - row) ∧
        0 ≤ s.cursorCell.x ∧ 0 ≤ s.cursorCell.y
    · rw [(pattern_collision_cells s3 _ _).1 hc]
      rfl
    · rw [(pattern_collision_cells s3 _ _).2 hc]
      show ((s.mMap.setBlocked g.x g.y nb).cells g.x g.y).blocked = nb
      rw [Map.cells_setBlocked, if_pos ⟨rfl, rfl⟩]
      rfl
  · intro col row h1 h2 h3 h4 h5 h6
    have h := (pattern_collision_cells s3
      (s.cursorCell.x - ((s.mToolBar.brush.width - 1) - col))
      (s.cursorCell.y - ((s.mToolBar.brush.height - 1) - row))).1
      ⟨col, row, h1, h2, h3, h4, rfl, rfl, h5, h6⟩
    rw [h]
    rfl
  · intro moves
    obtain ⟨s2, k1, k2, k3, k4, k5⟩ := mouseMoves_collision fuel moves s3.pattern_collision hst3
    refine ⟨s2, k1, k2, fun a b l => by rw [k5, hidx], ?_⟩
    intro x2 y2 relX relY hr hs
    obtain ⟨t1, m1, m2, m3⟩ := onMouseMove_collision_stamp fuel s2 x2 y2 relX relY k3
      (by rw [k4]; rfl) hr hs
    obtain ⟨t2, n1, n2, _, _, n5⟩ := onMouseMove_collision fuel s2 x2 y2 relX relY k3
    have ht : t1 = t2 := by
      rw [m1] at n1
      exact Except.ok.inj n1
    subst ht
    refine ⟨t1, m1, by rw [n2, k2]; rfl, fun a b l => by rw [n5, k5, hidx], ?_⟩
    intro col row h1 h2 h3 h4 h5 h6
    rw [m3 col row h1 h2 h3 h4 h5 h6, k2]
    rfl

/-- C8 at a concrete input: a click on cell (0, 0) of the example map, not
blocked before, in Collision state. -/
theorem C8_collision_mousedown_toggles_and_captures_witness :
    exCollisionEditor.mEditState = .STATE_TILE_COLLISION ∧
    exCollisionEditor.ignoresLeftButtonDown 16 48 = false ∧
    ∃ s1, exCollisionEditor.onMouseDown 0 .BUTTON_LEFT 16 48 = .ok s1 ∧
      s1.mPlacingCollision = true ∧ (s1.mMap.cells 0 0).blocked = true := by
  refine ⟨rfl, by decide, ?_⟩
  obtain ⟨s1, h1, h2, h3, _⟩ :=
    C8_collision_mousedown_toggles_and_captures 0 exCollisionEditor 16 48 rfl (by decide)
  exact ⟨s1, h1, h2, h3⟩

/-! ## Undo -/

theorem changeTileTexture_keeps (fuel : Nat) (t t1 : EditorState)
    (h : t.changeTileTexture fuel = .ok t1) :
    t1.mFieldUndo = t.mFieldUndo ∧ t1.mEditState = t.mEditState := by
  unfold EditorState.changeTileTexture at h
  split at h
  · cases h
  · split at h
    · cases h; exact ⟨rfl, rfl⟩
    · split at h
      · split at h
        · unfold EditorState.patternFill_Contig at h
          split at h
          · cases h; exact ⟨rfl, rfl⟩
          · cases h
        · cases h; exact ⟨rfl, rfl⟩
      · split at h
        · cases h; exact ⟨rfl, rfl⟩
        · split at h
          · cases h; exact ⟨rfl, rfl⟩
          · cases h; exact ⟨rfl, rfl⟩

theorem onMouseDown_left_snapshot (fuel : Nat) (s s1 : EditorState) (x y : Int)
    (hmap : s.ignoresLeftButtonDown x y = false)
    (h : s.onMouseDown fuel .BUTTON_LEFT x y = .ok s1) :
    s1.mFieldUndo = some s.mMap.field ∧ s1.mEditState = s.mEditState := by
  simp only [EditorState.onMouseDown, EditorState.handleLeftButtonDown] at h
  have hig : ({ s with mLeftButtonDown := true } : EditorState).ignoresLeftButtonDown x y
      = false := hmap
  rw [hig] at h
  simp only [Bool.false_eq_true, if_false] at h
  split at h
  · cases h
    exact ⟨rfl, rfl⟩
  · exact changeTileTexture_keeps fuel _ s1 h

/-- C9: outside link-edit, Ctrl+Z (a key-down that is not a repeat) sets the
map's tile field to exactly the snapshot when there is one and changes nothing
else; with no snapshot taken it leaves the editor unchanged; a mousedown that
passes the chrome test and returns has captured the field that preceded it, so
undo right after it restores that field; and a second undo is a no-op. -/
theorem C9_undo_restores_snapshot (fuel : Nat) (s : EditorState) :
    (∀ f, s.mEditState ≠ .STATE_MAP_LINK_EDIT → s.mFieldUndo = some f →
      (s.onKeyDown .KEY_z true false).mMap.field = f ∧
      s.onKeyDown .KEY_z true false = { s with mMap := s.mMap.setField f }) ∧
    (s.mFieldUndo = none → s.onKeyDown .KEY_z true false = s) ∧
    (∀ x y s1, s.ignoresLeftButtonDown x y = false →
      s.onMouseDown fuel .BUTTON_LEFT x y = .ok s1 →
      s1.mFieldUndo = some s.mMap.field ∧
      (s1.onKeyDown .KEY_z true false).mMap.field = s.mMap.field) ∧
    ((s.onKeyDown .KEY_z true false).onKeyDown .KEY_z true false
      = s.onKeyDown .KEY_z true false) := by
  have hundo : ∀ (t : EditorState) f, t.mEditState ≠ .STATE_MAP_LINK_EDIT →
      t.mFieldUndo = some f →
      t.onKeyDown .KEY_z true false = { t with mMap := t.mMap.setField f } := by
    intro t f hne hf
    simp only [EditorState.onKeyDown, Bool.false_eq_true, if_false, if_true, if_neg hne, hf]
  refine ⟨?_, ?_, ?_, ?_⟩
  · intro f hne hf
    rw [hundo s f hne hf]
    exact ⟨rfl, rfl⟩
  · intro hf
    simp only [EditorState.onKeyDown, Bool.false_eq_true, if_false, if_true, hf]
    split <;> rfl
  · intro x y s1 hmap hdown
    obtain ⟨h1, h2⟩ := onMouseDown_left_snapshot fuel s s1 x y hmap hdown
    refine ⟨h1, ?_⟩
    have hne : s1.mEditState ≠ .STATE_MAP_LINK_EDIT := by
      rw [h2]
      intro hlink
      simp [EditorState.ignoresLeftButtonDown, hlink] at hmap
    rw [hundo s1 _ hne h1]
    rfl
  · by_cases hne : s.mEditState = .STATE_MAP_LINK_EDIT
    · simp only [EditorState.onKeyDown, Bool.false_eq_true, if_false, if_pos hne]
    · cases hf : s.mFieldUndo with
      | none =>
        have h0 : s.onKeyDown .KEY_z true false = s := by
          simp only [EditorState.onKeyDown, Bool.false_eq_true, if_false, if_true, hf]
          split <;> rfl
        rw [h0, h0]
      | some f =>
        rw [hundo s f hne hf]
        exact hundo { s with mMap := s.mMap.setField f } f hne hf

/-- C10 (failing input): a primary-button stroke that starts on the toolbar
strip (`y < 32`) takes no snapshot but still arms painting; the move over cell
(0, 0) changes its base tile from 5 to 7 while the undo snapshot is empty, and
undo leaves the edit in place.  When an earlier stroke painted cell (0, 0), the
same kind of stroke over cell (1, 0) paints with the snapshot still holding the
field from before the earlier stroke, and undo removes both edits. -/
theorem C10_stroke_from_chrome_paints_without_snapshot :
    exEditor.mMap.indexAt .LAYER_BASE ⟨0, 0⟩ = 5 ∧
    exEditor.mMap.indexAt .LAYER_BASE ⟨1, 0⟩ = 5 ∧
    (∃ s2, strokeFromChrome = .ok s2 ∧
      s2.mMap.indexAt .LAYER_BASE ⟨0, 0⟩ = 7 ∧
      s2.mFieldUndo.isSome = false ∧
      (s2.onKeyDown .KEY_z true false).mMap.indexAt .LAYER_BASE ⟨0, 0⟩ = 7) ∧
    (∃ t4 f, strokeThenStrokeFromChrome = .ok t4 ∧
      t4.mMap.indexAt .LAYER_BASE ⟨0, 0⟩ = 7 ∧
      t4.mMap.indexAt .LAYER_BASE ⟨1, 0⟩ = 7 ∧
      t4.mFieldUndo = some f ∧
      (f 0 0).index .LAYER_BASE = 5 ∧
      (t4.onKeyDown .KEY_z true false).mMap.indexAt .LAYER_BASE ⟨0, 0⟩ = 5 ∧
      (t4.onKeyDown .KEY_z true false).mMap.indexAt .LAYER_BASE ⟨1, 0⟩ = 5) := by
  refine ⟨by decide, by decide, ⟨_, rfl, by decide, by decide, by decide⟩,
    ⟨_, _, rfl, by decide, by decide, rfl, by decide, by decide, by decide⟩⟩

/-- C7 at a concrete input: the example editor's 10 x 10 map filled with the 1 x 1
pattern holding tile 7. -/
theorem C7_patternFill_tiles_whole_map_witness :
    1 ≤ exEditor.mTilePalette.pattern.width ∧ 1 ≤ exEditor.mTilePalette.pattern.height ∧
    ((exEditor.patternFill .LAYER_BASE).mMap.cells 2 0).index .LAYER_BASE = 7 ∧
    ((exEditor.patternFill .LAYER_BASE).mMap.cells 2 0).index .LAYER_DETAIL = 0 :=
  ⟨by decide, by decide,
    ((C7_patternFill_tiles_whole_map exEditor .LAYER_BASE (by decide) (by decide)).1 2 0
      (by decide) (by decide) (by decide) (by decide)).2.1,
    ((C7_patternFill_tiles_whole_map exEditor .LAYER_BASE (by decide) (by decide)).1 2 0
      (by decide) (by decide) (by decide) (by decide)).2.2 .LAYER_DETAIL (by decide)⟩

/-! ## Link-edit entry and exit -/

theorem onKeyDown_F3 (s : EditorState) (control : Bool)
    (hs : s.mEditState ≠ .STATE_MAP_LINK_EDIT) :
    s.onKeyDown .KEY_F3 control false =
      { s with
        mLinkCell := some s.cursorCell,
        mTxtLinkDestination := (s.mMap.getCell s.mMouseCoords).link,
        mTxtLinkDestX := toString (s.mMap.getCell s.mMouseCoords).link_destination.x,
        mTxtLinkDestY := toString (s.mMap.getCell s.mMouseCoords).link_destination.y,
        mPreviousEditState := s.mEditState,
        mEditState := .STATE_MAP_LINK_EDIT } := by
  simp only [EditorState.onKeyDown, Bool.false_eq_true, if_false, if_neg hs,
    EditorState.setState]
  rfl

/-- C11: from every non-link edit state `e`, F3 enters link-edit with `e` saved.
Cancelling then makes `e` the current state again and `MapLinkEdit` the saved
one, and leaves the map alone.  Confirming, whatever the three text fields hold
by then, also makes `e` current and `MapLinkEdit` saved, and the inspected cell
(the one under the cursor at F3) receives the destination text as link and
`(stringToInt X, stringToInt Y)` as destination point, nothing else in the map
changing.  In both cases one more `restorePreviousState` gives `MapLinkEdit`. -/
theorem C11_link_edit_reciprocal (stringToInt : String → Int) (s : EditorState)
    (control : Bool) (dest destX destY : String)
    (hs : s.mEditState ≠ .STATE_MAP_LINK_EDIT) :
    (s.onKeyDown .KEY_F3 control false).mEditState = .STATE_MAP_LINK_EDIT ∧
    (s.onKeyDown .KEY_F3 control false).mPreviousEditState = s.mEditState ∧
    ((s.onKeyDown .KEY_F3 control false).button_MapLinkCancel_Click).mEditState
      = s.mEditState ∧
    ((s.onKeyDown .KEY_F3 control false).button_MapLinkCancel_Click).mPreviousEditState
      = .STATE_MAP_LINK_EDIT ∧
    ((s.onKeyDown .KEY_F3 control false).button_MapLinkCancel_Click).mMap = s.mMap ∧
    (((s.onKeyDown .KEY_F3 control false).button_MapLinkCancel_Click).restorePreviousState).mEditState
      = .STATE_MAP_LINK_EDIT ∧
    ((((s.onKeyDown .KEY_F3 control false).withLinkTexts dest destX destY).button_MapLinkOkay_Click
        stringToInt).mEditState = s.mEditState) ∧
    ((((s.onKeyDown .KEY_F3 control false).withLinkTexts dest destX destY).button_MapLinkOkay_Click
        stringToInt).mPreviousEditState = .STATE_MAP_LINK_EDIT) ∧
    ((((s.onKeyDown .KEY_F3 control false).withLinkTexts dest destX destY).button_MapLinkOkay_Click
        stringToInt).restorePreviousState.mEditState = .STATE_MAP_LINK_EDIT) ∧
    ((((s.onKeyDown .KEY_F3 control false).withLinkTexts dest destX destY).button_MapLinkOkay_Click
        stringToInt).mMap.cells s.cursorCell.x s.cursorCell.y
      = { (s.mMap.cells s.cursorCell.x s.cursorCell.y) with
          link := dest, link_destination := ⟨stringToInt destX, stringToInt destY⟩ }) ∧
    (∀ a b, ¬ (a = s.cursorCell.x ∧ b = s.cursorCell.y) →
      (((s.onKeyDown .KEY_F3 control false).withLinkTexts dest destX destY).button_MapLinkOkay_Click
        stringToInt).mMap.cells a b = s.mMap.cells a b) := by
  rw [onKeyDown_F3 s control hs]
  refine ⟨rfl, rfl, rfl, rfl, rfl, rfl, rfl, rfl, rfl, ?_, ?_⟩
  · show (if s.cursorCell.x = s.cursorCell.x ∧ s.cursorCell.y = s.cursorCell.y then _ else _) = _
    rw [if_pos ⟨rfl, rfl⟩]
    rfl
  · intro a b hab
    show (if a = s.cursorCell.x ∧ b = s.cursorCell.y then _ else _) = _
    rw [if_neg hab]
    rfl

/-- C11 at a concrete input: link-edit entered from the base-tile state of the
example editor; the inspected cell is (0, 0). -/
theorem C11_link_edit_reciprocal_witness :
    exEditor.mEditState ≠ .STATE_MAP_LINK_EDIT ∧
    ((exEditor.onKeyDown .KEY_F3 false false).button_MapLinkCancel_Click).mEditState
      = .STATE_BASE_TILE_INDEX ∧
    ((((exEditor.onKeyDown .KEY_F3 false false).withLinkTexts "cave" "3" "4").button_MapLinkOkay_Click
        (fun _ => 0)).mEditState = .STATE_BASE_TILE_INDEX) ∧
    ((((exEditor.onKeyDown .KEY_F3 false false).withLinkTexts "cave" "3" "4").button_MapLinkOkay_Click
        (fun _ => 0)).mMap.cells 0 0).link = "cave" := by
  have h := C11_link_edit_reciprocal (fun _ => 0) exEditor false "cave" "3" "4" (by decide)
  refine ⟨by decide, h.2.2.1, h.2.2.2.2.2.2.1, ?_⟩
  have h2 := h.2.2.2.2.2.2.2.2.2.1
  exact congrArg Cell.link h2

/-! ## Mouse moves during link-edit -/

/-- C12 (failing input): in the example editor F3 enters link-edit; the primary
button goes down (the mousedown is ignored but the button is recorded as held);
the next mouse move with the button held below the toolbar strip reaches
`changeTileTexture`, which throws "Bad State".  In general a mouse move in
link-edit with the primary button held never changes the map, but it ends in
that exception whenever it is not suppressed by the toolbar-area test. -/
theorem C12_link_edit_drag_throws :
    (exEditor.onKeyDown .KEY_F3 false false).mEditState = .STATE_MAP_LINK_EDIT ∧
    (∃ s1, (exEditor.onKeyDown .KEY_F3 false false).onMouseDown 0 .BUTTON_LEFT 16 48 = .ok s1 ∧
      s1.mEditState = .STATE_MAP_LINK_EDIT ∧ s1.mLeftButtonDown = true ∧
      s1.onMouseMove 0 20 50 4 2 = .error .badState) ∧
    linkEditDrag = .error .badState ∧
    (∀ (fuel : Nat) (s : EditorState) (x y relX relY : Int),
      s.mEditState = .STATE_MAP_LINK_EDIT → s.mLeftButtonDown = true →
      ((decide (y < 32) || s.mToolBar.flood || s.mTilePalette.responding_to_events ||
          s.mMiniMap.responding_to_events) = true →
        s.onMouseMove fuel x y relX relY = .ok { s with mMouseCoords := ⟨x, y⟩ }) ∧
      ((decide (y < 32) || s.mToolBar.flood || s.mTilePalette.responding_to_events ||
          s.mMiniMap.responding_to_events) = false →
        s.onMouseMove fuel x y relX relY = .error .badState)) := by
  refine ⟨rfl, ⟨_, rfl, rfl, rfl, rfl⟩, rfl, ?_⟩
  intro fuel s x y relX relY hst hl
  have hr : ¬ (s.mRightButtonDown = true ∧ s.mEditState ≠ .STATE_MAP_LINK_EDIT) :=
    fun h => h.2 hst
  constructor
  · intro hsup
    unfold EditorState.onMouseMove
    rw [if_neg hr]
    simp only
    rw [if_pos hl, if_pos hsup]
  · intro hsup
    unfold EditorState.onMouseMove
    rw [if_neg hr]
    simp only
    rw [if_pos hl, hsup]
    simp only [Bool.false_eq_true, if_false]
    rw [if_neg (by rw [hst]; decide)]
    unfold EditorState.changeTileTexture
    simp only [hst, StateToLayer]

/-! ## The Bad State error -/

theorem changeTileTexture_eq_exit (fuel : Nat) (s : EditorState) :
    s.changeTileTexture fuel =
      match s.changeTileTextureExit fuel with
      | (s1, none) => .ok s1
      | (_, some e) => .error e := by
  unfold EditorState.changeTileTexture EditorState.changeTileTextureExit
  cases hl : StateToLayer s.mEditState with
  | none => rfl
  | some layer =>
    simp only
    by_cases h1 : layer_hidden s.mEditState s.mToolBar = true
    · simp only [h1, if_true]
    · simp only [h1, Bool.false_eq_true, if_false]
      by_cases h2 : s.mToolBar.flood = true
      · simp only [h2, if_true]
        by_cases h3 : s.mToolBar.flood_contiguous = true
        · simp only [h3, if_true, EditorState.patternFill_Contig]
          cases Landlord.patternFill_Contig fuel s.mTilePalette.pattern s.mMap layer
            (s.mMap.getGridCoords s.mMouseCoords) ((s.mMap.getCell s.mMouseCoords).index layer) with
          | none => rfl
          | some m => rfl
        · simp only [h3, Bool.false_eq_true, if_false]
      · simp only [h2, Bool.false_eq_true, if_false]
        by_cases h4 : s.mToolBar.pencil = true
        · simp only [h4, if_true]
        · simp only [h4, Bool.false_eq_true, if_false]
          by_cases h5 : s.mToolBar.erase = true
          · simp only [h5, if_true]
          · simp only [h5, Bool.false_eq_true, if_false]

theorem changeTileTextureExit_badState_iff (fuel : Nat) (s : EditorState) :
    (s.changeTileTextureExit fuel).2 = some .badState ↔ StateToLayer s.mEditState = none := by
  unfold EditorState.changeTileTextureExit
  cases hl : StateToLayer s.mEditState with
  | none => simp
  | some layer =>
    simp only
    constructor
    · intro h
      exfalso
      revert h
      split
      · simp
      · split
        · split
          · split <;> simp
          · simp
        · split
          · simp
          · split <;> simp
    · intro h
      cases h

/-- C13: `changeTileTexture` throws "Bad State" exactly when the current edit state has
no entry in the state-to-layer table, that is exactly when it is none of BaseTile,
BaseDetailTile, DetailTile and ForegroundTile; these four map one-to-one to the
base, base-detail, detail and foreground layers.  When it throws, the editor is
as it was on entry: the map and the map-changed flag are unchanged. -/
theorem C13_changeTileTexture_bad_state (fuel : Nat) (s : EditorState) :
    (s.changeTileTexture fuel = .error .badState ↔ StateToLayer s.mEditState = none) ∧
    ((s.changeTileTextureExit fuel).2 = some .badState ↔ StateToLayer s.mEditState = none) ∧
    (StateToLayer s.mEditState = none ↔
      (s.mEditState ≠ .STATE_BASE_TILE_INDEX ∧ s.mEditState ≠ .STATE_BASE_DETAIL_TILE_INDEX ∧
        s.mEditState ≠ .STATE_DETAIL_TILE_INDEX ∧ s.mEditState ≠ .STATE_FOREGROUND_TILE_INDEX)) ∧
    (StateToLayer .STATE_BASE_TILE_INDEX = some .LAYER_BASE ∧
      StateToLayer .STATE_BASE_DETAIL_TILE_INDEX = some .LAYER_BASE_DETAIL ∧
      StateToLayer .STATE_DETAIL_TILE_INDEX = some .LAYER_DETAIL ∧
      StateToLayer .STATE_FOREGROUND_TILE_INDEX = some .LAYER_FOREGROUND) ∧
    (∀ e1 e2 l, StateToLayer e1 = some l → StateToLayer e2 = some l → e1 = e2) ∧
    ((s.changeTileTextureExit fuel).2 = some .badState →
      (s.changeTileTextureExit fuel).1 = s ∧
      (s.changeTileTextureExit fuel).1.mMap = s.mMap ∧
      (s.changeTileTextureExit fuel).1.mMapChanged = s.mMapChanged) := by
  have hiff := changeTileTextureExit_badState_iff fuel s
  refine ⟨?_, hiff, ?_, ⟨rfl, rfl, rfl, rfl⟩, ?_, ?_⟩
  · rw [changeTileTexture_eq_exit, ← hiff]
    rcases hx : s.changeTileTextureExit fuel with ⟨s1, _ | e⟩
    · simp
    · simp
  · cases s.mEditState <;> simp [StateToLayer]
  · intro e1 e2 l h1 h2
    cases e1 <;> cases e2 <;> simp [StateToLayer] at h1 h2 ⊢ <;>
      (rw [← h1] at h2; cases h2)
  · intro h
    have hnone := hiff.mp h
    have : s.changeTileTextureExit fuel = (s, some .badState) := by
      unfold EditorState.changeTileTextureExit
      rw [hnone]
    rw [this]
    exact ⟨rfl, rfl, rfl⟩

/-! ## The layer-visibility gate -/

/-- C14: in each of the four tile-layer states, when that state's own visibility
flag is off `changeTileTexture` returns with the editor exactly as it was (no
cell of the map changes and the map-changed flag is not set), whatever the
tool, the cursor and the other flags are.  `layer_hidden` is the negation of
the one flag of the state (base, base-detail, detail, foreground, collision),
so it does not depend on the other flags, and it is false for MapLinkEdit. -/
theorem C14_layer_hidden_gate (fuel : Nat) (s : EditorState) (t : ToolBar) :
    (s.mEditState = .STATE_BASE_TILE_INDEX → s.mToolBar.show_bg = false →
      s.changeTileTexture fuel = .ok s) ∧
    (s.mEditState = .STATE_BASE_DETAIL_TILE_INDEX → s.mToolBar.show_bg_detail = false →
      s.changeTileTexture fuel = .ok s) ∧
    (s.mEditState = .STATE_DETAIL_TILE_INDEX → s.mToolBar.show_detail = false →
      s.changeTileTexture fuel = .ok s) ∧
    (s.mEditState = .STATE_FOREGROUND_TILE_INDEX → s.mToolBar.show_foreground = false →
      s.changeTileTexture fuel = .ok s) ∧
    (layer_hidden .STATE_BASE_TILE_INDEX t = !t.show_bg) ∧
    (layer_hidden .STATE_BASE_DETAIL_TILE_INDEX t = !t.show_bg_detail) ∧
    (layer_hidden .STATE_DETAIL_TILE_INDEX t = !t.show_detail) ∧
    (layer_hidden .STATE_FOREGROUND_TILE_INDEX t = !t.show_foreground) ∧
    (layer_hidden .STATE_TILE_COLLISION t = !t.show_collision) ∧
    (layer_hidden .STATE_MAP_LINK_EDIT t = false) := by
  refine ⟨?_, ?_, ?_, ?_, rfl, rfl, rfl, rfl, rfl, rfl⟩
  · intro h1 h2
    unfold EditorState.changeTileTexture
    simp [h1, StateToLayer, layer_hidden, h2]
  · intro h1 h2
    unfold EditorState.changeTileTexture
    simp [h1, StateToLayer, layer_hidden, h2]
  · intro h1 h2
    unfold EditorState.changeTileTexture
    simp [h1, StateToLayer, layer_hidden, h2]
  · intro h1 h2
    unfold EditorState.changeTileTexture
    simp [h1, StateToLayer, layer_hidden, h2]

/-! ## The create-new action of the Start screen -/

/-- C15 (counterexample): with width text "5" and height text "5" both values
are below 10; the Start state is kept and the width field is highlighted, but
the height field, whose value violates the bound as well, is not.  Likewise
with width "5" and an empty path the path field is not highlighted. -/
theorem C15_later_violation_not_highlighted :
    exFromString "5" = (true, 5) ∧
    ((exStart "5" "5" "a").button_CreateNew_click exFromString exDefaults).mReturnState = .self ∧
    ((exStart "5" "5" "a").button_CreateNew_click exFromString exDefaults).mTxtWidth.highlight
      = true ∧
    ((exStart "5" "5" "a").button_CreateNew_click exFromString exDefaults).mTxtHeight.highlight
      = false ∧
    (exStart "5" "12" "").txtMapPath.text.isEmpty = true ∧
    ((exStart "5" "12" "").button_CreateNew_click exFromString exDefaults).txtMapPath.highlight
      = false := by
  decide

/-- C15 (amended): when the width text reads as an integer, the create-new action
runs its checks in the order: height text not an integer, width below 10, height
below 10, path empty.  If none fails the return state becomes a new Editor state
built with that width and height and no field is highlighted; otherwise the
return state is left as it was (the Start state) and exactly the field of the
first failing check is highlighted. -/
theorem C15_create_new_first_violation (from_string : String → Bool × Int) (d : Defaults)
    (s : StartState) (_hw : (from_string s.mTxtWidth.text).1 = true) :
    ((from_string s.mTxtHeight.text).1 = true → 10 ≤ (from_string s.mTxtWidth.text).2 →
      10 ≤ (from_string s.mTxtHeight.text).2 → s.txtMapPath.text.isEmpty = false →
      (s.button_CreateNew_click from_string d).mReturnState
        = .newEditor d.EDITOR_NEW_MAP_NAME (d.EDITOR_MAPS_PATH ++ s.txtMapPath.text)
            (d.EDITOR_TSET_PATH ++ s.tsetSelection) (from_string s.mTxtWidth.text).2
            (from_string s.mTxtHeight.text).2 ∧
      (s.button_CreateNew_click from_string d).mTxtWidth.highlight = false ∧
      (s.button_CreateNew_click from_string d).mTxtHeight.highlight = false ∧
      (s.button_CreateNew_click from_string d).txtMapPath.highlight = false) ∧
    ((from_string s.mTxtHeight.text).1 = false →
      (s.button_CreateNew_click from_string d).mReturnState = s.mReturnState ∧
      (s.button_CreateNew_click from_string d).mTxtWidth.highlight = false ∧
      (s.button_CreateNew_click from_string d).mTxtHeight.highlight = true ∧
      (s.button_CreateNew_click from_string d).txtMapPath.highlight = false) ∧
    ((from_string s.mTxtHeight.text).1 = true → (from_string s.mTxtWidth.text).2 < 10 →
      (s.button_CreateNew_click from_string d).mReturnState = s.mReturnState ∧
      (s.button_CreateNew_click from_string d).mTxtWidth.highlight = true ∧
      (s.button_CreateNew_click from_string d).mTxtHeight.highlight = false ∧
      (s.button_CreateNew_click from_string d).txtMapPath.highlight = false) ∧
    ((from_string s.mTxtHeight.text).1 = true → 10 ≤ (from_string s.mTxtWidth.text).2 →
      (from_string s.mTxtHeight.text).2 < 10 →
      (s.button_CreateNew_click from_string d).mReturnState = s.mReturnState ∧
      (s.button_CreateNew_click from_string d).mTxtWidth.highlight = false ∧
      (s.button_CreateNew_click from_string d).mTxtHeight.highlight = true ∧
      (s.button_CreateNew_click from_string d).txtMapPath.highlight = false) ∧
    ((from_string s.mTxtHeight.text).1 = true → 10 ≤ (from_string s.mTxtWidth.text).2 →
      10 ≤ (from_string s.mTxtHeight.text).2 → s.txtMapPath.text.isEmpty = true →
      (s.button_CreateNew_click from_string d).mReturnState = s.mReturnState ∧
      (s.button_CreateNew_click from_string d).mTxtWidth.highlight = false ∧
      (s.button_CreateNew_click from_string d).mTxtHeight.highlight = false ∧
      (s.button_CreateNew_click from_string d).txtMapPath.highlight = true) := by
  refine ⟨?_, ?_, ?_, ?_, ?_⟩
  · intro h1 h2 h3 h4
    simp only [StartState.button_CreateNew_click, h1, h4, Bool.not_true, Bool.false_eq_true,
      if_false, if_neg (not_lt.mpr h2), if_neg (not_lt.mpr h3)]
    refine ⟨?_, ?_, ?_, ?_⟩ <;> first | rfl | trivial
  · intro h1
    simp only [StartState.button_CreateNew_click, h1, Bool.not_false, if_true]
    refine ⟨?_, ?_, ?_, ?_⟩ <;> first | rfl | trivial
  · intro h1 h2
    simp only [StartState.button_CreateNew_click, h1, Bool.not_true, Bool.false_eq_true,
      if_false, if_pos h2]
    refine ⟨?_, ?_, ?_, ?_⟩ <;> first | rfl | trivial
  · intro h1 h2 h3
    simp only [StartState.button_CreateNew_click, h1, Bool.not_true, Bool.false_eq_true,
      if_false, if_neg (not_lt.mpr h2), if_pos h3]
    refine ⟨?_, ?_, ?_, ?_⟩ <;> first | rfl | trivial
  · intro h1 h2 h3 h4
    simp only [StartState.button_CreateNew_click, h1, h4, Bool.not_true, Bool.false_eq_true,
      if_false, if_true, if_neg (not_lt.mpr h2), if_neg (not_lt.mpr h3)]
    refine ⟨?_, ?_, ?_, ?_⟩ <;> first | rfl | trivial

/-- C15 (amended) at concrete inputs: width "12", height "12" and path "a" give an
Editor state of 12 x 12. -/
theorem C15_create_new_first_violation_witness :
    (exFromString (exStart "12" "12" "a").mTxtWidth.text).1 = true ∧
    ((exStart "12" "12" "a").button_CreateNew_click exFromString exDefaults).mReturnState
      = .newEditor "New Map" "maps/a" "tsets/default.png" 12 12 := by
  refine ⟨by decide, ?_⟩
  have h := (C15_create_new_first_violation exFromString exDefaults (exStart "12" "12" "a")
    (by decide)).1 (by decide) (by decide) (by decide) (by decide)
  rw [h.1]
  decide

/-! ## Re-visits during a contiguous fill -/

/-- C16 (counterexample): filling the 2 x 2 map of 5s with the 1 x 1 pattern
holding 7 from (0, 0) ends after five iterations; cell (1, 0) is pushed twice
(by (0, 0) and by (1, 1)) before it is first popped, so after the fourth
iteration it holds 7, not the seed value 5, and is still on the stack: the
fifth iteration pops and writes it again. -/
theorem C16_overwritten_cell_popped_again :
    squareMap.indexAt .LAYER_BASE ⟨0, 0⟩ = 5 ∧
    patternFill_ContigWritten 5 exPattern squareMap .LAYER_BASE ⟨0, 0⟩ 5
      = [⟨0, 0⟩, ⟨0, 1⟩, ⟨1, 1⟩, ⟨1, 0⟩, ⟨1, 0⟩] ∧
    ((floodBody .LAYER_BASE exPattern 5)^[4] ⟨squareMap, [⟨0, 0⟩]⟩).map.indexAt
      .LAYER_BASE ⟨1, 0⟩ = 7 ∧
    ((floodBody .LAYER_BASE exPattern 5)^[4] ⟨squareMap, [⟨0, 0⟩]⟩).stack = [⟨1, 0⟩] ∧
    (patternFill_Contig 5 exPattern squareMap .LAYER_BASE ⟨0, 0⟩ 5).isSome = true := by
  decide

theorem StackInv.stack_step {layer : TileLayer} {p : Pattern} {s : Int} {st : FloodState}
    (h : StackInv layer p s st) : StackInv layer p s (floodBody layer p s st) := by
  obtain ⟨m, stack⟩ := st
  cases stack with
  | nil => exact h
  | cons top rest =>
    rw [floodBody_cons]
    intro q hq
    simp only at hq ⊢
    rcases mem_floodPush.mp hq with ⟨_, _, hidx⟩ | hr
    · exact Or.inl hidx
    · by_cases hqt : q = top
      · subst hqt
        right
        exact Map.indexAt_setIndex_self _ _ _ _
      · rw [Map.indexAt_setIndex_ne _ _ _ _ _ hqt]
        exact h q (by simp [hr])

theorem StackInv.stack_iterate {layer : TileLayer} {p : Pattern} {s : Int} {st : FloodState}
    (h : StackInv layer p s st) (n : Nat) :
    StackInv layer p s ((floodBody layer p s)^[n] st) := by
  induction n with
  | zero => exact h
  | succ k ih =>
    rw [Function.iterate_succ_apply']
    exact ih.stack_step

theorem StackInv.stable_step {layer : TileLayer} {p : Pattern} {s : Int} {st : FloodState}
    (h : StackInv layer p s st) (q : Point_2d) (hq : st.map.indexAt layer q ≠ s) :
    (floodBody layer p s st).map.indexAt layer q = st.map.indexAt layer q ∧
    List.count q (floodBody layer p s st).stack ≤ List.count q st.stack := by
  obtain ⟨m, stack⟩ := st
  cases stack with
  | nil => exact ⟨rfl, le_rfl⟩
  | cons top rest =>
    rw [floodBody_cons]
    simp only at hq ⊢
    have hidx : (m.setIndex top.x top.y layer (p.wrapped top)).indexAt layer q
        = m.indexAt layer q := by
      by_cases hqt : q = top
      · subst hqt
        rw [Map.indexAt_setIndex_self]
        rcases h q (by simp) with h1 | h1
        · exact absurd h1 hq
        · exact h1.symm
      · exact Map.indexAt_setIndex_ne _ _ _ _ _ hqt
    refine ⟨hidx, ?_⟩
    rw [floodPush_eq, List.count_append]
    have hnot : q ∉ ((neighbours top).filter (fun c =>
        decide ((m.setIndex top.x top.y layer (p.wrapped top)).inBounds c = true ∧
          (m.setIndex top.x top.y layer (p.wrapped top)).indexAt layer c = s))).reverse := by
      intro hmem
      simp only [List.mem_reverse, List.mem_filter, decide_eq_true_eq] at hmem
      rw [hidx] at hmem
      exact hq hmem.2.2
    rw [List.count_eq_zero.mpr hnot, Nat.zero_add, List.count_cons]
    omega

theorem Cell.setIndex_index (c : Cell) (l : TileLayer) : c.setIndex l (c.index l) = c := by
  cases c
  cases l <;> rfl

/-- Popping an entry whose cell no longer holds the seed value rewrites the value
the cell already has and removes that one entry, adding none for the cell. -/
theorem StackInv.stale_pop {layer : TileLayer} {p : Pattern} {s : Int} {st : FloodState}
    (h : StackInv layer p s st) (q : Point_2d) (rest : List Point_2d)
    (hstack : st.stack = q :: rest) (hq : st.map.indexAt layer q ≠ s) :
    (∀ a b, (floodBody layer p s st).map.cells a b = st.map.cells a b) ∧
    List.count q (floodBody layer p s st).stack + 1 = List.count q st.stack := by
  obtain ⟨m, stack⟩ := st
  simp only at hstack hq
  subst hstack
  have hval : p.wrapped q = m.indexAt layer q := by
    rcases h q (by simp) with h1 | h1
    · exact absurd h1 hq
    · exact h1.symm
  rw [floodBody_cons]
  simp only
  have hcells : ∀ a b, (m.setIndex q.x q.y layer (p.wrapped q)).cells a b = m.cells a b := by
    intro a b
    rw [Map.cells_setIndex]
    by_cases hab : a = q.x ∧ b = q.y
    · rw [if_pos hab, hab.1, hab.2, hval]
      exact Cell.setIndex_index _ _
    · rw [if_neg hab]
  refine ⟨hcells, ?_⟩
  have hidx : (m.setIndex q.x q.y layer (p.wrapped q)).indexAt layer q = m.indexAt layer q := by
    rw [Map.indexAt_setIndex_self]
    exact hval
  rw [floodPush_eq, List.count_append]
  have hnot : q ∉ ((neighbours q).filter (fun c =>
      decide ((m.setIndex q.x q.y layer (p.wrapped q)).inBounds c = true ∧
        (m.setIndex q.x q.y layer (p.wrapped q)).indexAt layer c = s))).reverse := by
    intro hmem
    simp only [List.mem_reverse, List.mem_filter, decide_eq_true_eq] at hmem
    rw [hidx] at hmem
    exact hq hmem.2.2
  rw [List.count_eq_zero.mpr hnot, Nat.zero_add, List.count_cons]
  simp

/-- C16 (amended): in a contiguous fill, once a cell holds a value other than the
seed index (in particular once it has been overwritten with one), it is never
pushed on the work stack again: through any number of further iterations its
value stays the same and the number of its entries on the stack does not grow.
Entries of the cell pushed earlier may remain on the stack; whenever one of
them is popped, the iteration leaves every cell of the map as it was (it
rewrites the value the cell already holds) and the cell has one entry fewer. -/
theorem C16_overwritten_never_pushed_again (p : Pattern) (m : Map) (layer : TileLayer)
    (seed q : Point_2d) (n k : Nat)
    (h : ((floodBody layer p (m.indexAt layer seed))^[n] ⟨m, [seed]⟩).map.indexAt layer q
      ≠ m.indexAt layer seed) :
    ((floodBody layer p (m.indexAt layer seed))^[k]
        ((floodBody layer p (m.indexAt layer seed))^[n] ⟨m, [seed]⟩)).map.indexAt layer q
      = ((floodBody layer p (m.indexAt layer seed))^[n] ⟨m, [seed]⟩).map.indexAt layer q ∧
    List.count q ((floodBody layer p (m.indexAt layer seed))^[k]
        ((floodBody layer p (m.indexAt layer seed))^[n] ⟨m, [seed]⟩)).stack
      ≤ List.count q ((floodBody layer p (m.indexAt layer seed))^[n] ⟨m, [seed]⟩).stack ∧
    (∀ rest,
      ((floodBody layer p (m.indexAt layer seed))^[k]
        ((floodBody layer p (m.indexAt layer seed))^[n] ⟨m, [seed]⟩)).stack = q :: rest →
      (∀ a b,
        (floodBody layer p (m.indexAt layer seed)
          ((floodBody layer p (m.indexAt layer seed))^[k]
            ((floodBody layer p (m.indexAt layer seed))^[n] ⟨m, [seed]⟩))).map.cells a b
        = ((floodBody layer p (m.indexAt layer seed))^[k]
            ((floodBody layer p (m.indexAt layer seed))^[n] ⟨m, [seed]⟩)).map.cells a b) ∧
      List.count q
          (floodBody layer p (m.indexAt layer seed)
            ((floodBody layer p (m.indexAt layer seed))^[k]
              ((floodBody layer p (m.indexAt layer seed))^[n] ⟨m, [seed]⟩))).stack + 1
        = List.count q
          ((floodBody layer p (m.indexAt layer seed))^[k]
            ((floodBody layer p (m.indexAt layer seed))^[n] ⟨m, [seed]⟩)).stack) := by
  have h0 : StackInv layer p (m.indexAt layer seed) ⟨m, [seed]⟩ := by
    intro r hr
    simp only [List.mem_singleton] at hr
    subst hr
    exact Or.inl rfl
  have hn := h0.stack_iterate n
  have hmain : ((floodBody layer p (m.indexAt layer seed))^[k]
        ((floodBody layer p (m.indexAt layer seed))^[n] ⟨m, [seed]⟩)).map.indexAt layer q
      = ((floodBody layer p (m.indexAt layer seed))^[n] ⟨m, [seed]⟩).map.indexAt layer q ∧
    List.count q ((floodBody layer p (m.indexAt layer seed))^[k]
        ((floodBody layer p (m.indexAt layer seed))^[n] ⟨m, [seed]⟩)).stack
      ≤ List.count q ((floodBody layer p (m.indexAt layer seed))^[n] ⟨m, [seed]⟩).stack := by
    induction k with
    | zero => exact ⟨rfl, le_rfl⟩
    | succ j ih =>
      rw [Function.iterate_succ_apply']
      have hj := hn.stack_iterate j
      have hs := hj.stable_step q (by rw [ih.1]; exact h)
      exact ⟨hs.1.trans ih.1, le_trans hs.2 ih.2⟩
  refine ⟨hmain.1, hmain.2, ?_⟩
  intro rest hstack
  exact (hn.stack_iterate k).stale_pop q rest hstack (by rw [hmain.1]; exact h)

/-- C16 (amended) at a concrete input: on the 2 x 2 map, cell (1, 0) holds 7
after four iterations with one entry left on the stack; the fifth iteration pops
it, leaves the cell at 7 and leaves no entry of it. -/
theorem C16_overwritten_never_pushed_again_witness :
    ((floodBody .LAYER_BASE exPattern (squareMap.indexAt .LAYER_BASE ⟨0, 0⟩))^[4]
        ⟨squareMap, [⟨0, 0⟩]⟩).map.indexAt .LAYER_BASE ⟨1, 0⟩
      ≠ squareMap.indexAt .LAYER_BASE ⟨0, 0⟩ ∧
    List.count (⟨1, 0⟩ : Point_2d)
        ((floodBody .LAYER_BASE exPattern (squareMap.indexAt .LAYER_BASE ⟨0, 0⟩))^[1]
          ((floodBody .LAYER_BASE exPattern (squareMap.indexAt .LAYER_BASE ⟨0, 0⟩))^[4]
            ⟨squareMap, [⟨0, 0⟩]⟩)).stack
      ≤ List.count (⟨1, 0⟩ : Point_2d)
        ((floodBody .LAYER_BASE exPattern (squareMap.indexAt .LAYER_BASE ⟨0, 0⟩))^[4]
          ⟨squareMap, [⟨0, 0⟩]⟩).stack ∧
    List.count (⟨1, 0⟩ : Point_2d)
        (floodBody .LAYER_BASE exPattern (squareMap.indexAt .LAYER_BASE ⟨0, 0⟩)
          ((floodBody .LAYER_BASE exPattern (squareMap.indexAt .LAYER_BASE ⟨0, 0⟩))^[0]
            ((floodBody .LAYER_BASE exPattern (squareMap.indexAt .LAYER_BASE ⟨0, 0⟩))^[4]
              ⟨squareMap, [⟨0, 0⟩]⟩))).stack + 1
      = List.count (⟨1, 0⟩ : Point_2d)
        ((floodBody .LAYER_BASE exPattern (squareMap.indexAt .LAYER_BASE ⟨0, 0⟩))^[0]
          ((floodBody .LAYER_BASE exPattern (squareMap.indexAt .LAYER_BASE ⟨0, 0⟩))^[4]
            ⟨squareMap, [⟨0, 0⟩]⟩)).stack :=
  ⟨by decide,
    (C16_overwritten_never_pushed_again exPattern squareMap .LAYER_BASE ⟨0, 0⟩ ⟨1, 0⟩ 4 1
      (by decide)).2.1,
    ((C16_overwritten_never_pushed_again exPattern squareMap .LAYER_BASE ⟨0, 0⟩ ⟨1, 0⟩ 4 0
      (by decide)).2.2 [] (by decide)).2⟩

/-! ## Far edges of a stamp -/

/-- C17: every write of the stamp loops with cursor cell `(cx, cy)` has a target
with `0 <= x <= cx` and `0 <= y <= cy`, so when the cursor cell is inside the
map every target is inside the map; the pencil and eraser stamp and the
collision stamp perform exactly those writes, and with the cursor cell inside
the map they leave every cell outside the map as it was. -/
theorem C17_stamp_writes_within_cursor (s : EditorState) (layer : TileLayer) (value : Int) :
    (∀ (_p : Pattern) (_pt : Point_2d), ∀ t ∈ stampWrites _p _pt,
      0 ≤ t.1 ∧ t.1 ≤ _pt.x ∧ 0 ≤ t.2.1 ∧ t.2.1 ≤ _pt.y) ∧
    (∀ (m : Map) (_p : Pattern) (_pt : Point_2d), m.inBounds _pt = true →
      ∀ t ∈ stampWrites _p _pt, m.inBounds ⟨t.1, t.2.1⟩ = true) ∧
    (s.pattern layer value).mMap
      = (stampWrites (s.stampBrush value) s.cursorCell).foldl
          (fun m t =>
            if value ≥ 0 then
              m.setIndex t.1 t.2.1 layer ((s.stampBrush value).value t.2.2.1 t.2.2.2)
            else m.setIndex t.1 t.2.1 layer (-1))
          s.mMap ∧
    s.pattern_collision.mMap
      = (stampWrites s.mToolBar.brush s.cursorCell).foldl
          (fun m t => m.setBlocked t.1 t.2.1 s.mPlacingCollision) s.mMap ∧
    (s.mMap.inBounds s.cursorCell = true →
      ∀ a b : Int, s.mMap.inBounds ⟨a, b⟩ = false →
        (s.pattern layer value).mMap.cells a b = s.mMap.cells a b ∧
        s.pattern_collision.mMap.cells a b = s.mMap.cells a b) := by
  have hbound : ∀ (_p : Pattern) (_pt : Point_2d), ∀ t ∈ stampWrites _p _pt,
      0 ≤ t.1 ∧ t.1 ≤ _pt.x ∧ 0 ≤ t.2.1 ∧ t.2.1 ≤ _pt.y := by
    intro _p _pt t ht
    obtain ⟨h1, h2, h3, h4, h5, h6, h7, h8⟩ := stampWrites_spec _p _pt t ht
    refine ⟨h1, by omega, h2, by omega⟩
  refine ⟨hbound, ?_, ?_, ?_, ?_⟩
  · intro m _p _pt hin t ht
    obtain ⟨h1, h2, h3, h4⟩ := hbound _p _pt t ht
    rw [Map.inBounds_iff] at hin ⊢
    simp only
    omega
  · exact stampLoop_eq_foldl_stampWrites (s.stampBrush value) s.cursorCell
      (fun m x y col row =>
        if value ≥ 0 then m.setIndex x y layer ((s.stampBrush value).value col row)
        else m.setIndex x y layer (-1)) s.mMap
  · exact stampLoop_eq_foldl_stampWrites s.mToolBar.brush s.cursorCell
      (fun m x y _ _ => m.setBlocked x y s.mPlacingCollision) s.mMap
  · intro hin a b hab
    rw [Map.inBounds_iff] at hin
    have hout : ¬ (0 ≤ a ∧ a < s.mMap.width ∧ 0 ≤ b ∧ b < s.mMap.height) := by
      intro hc
      have := (Map.inBounds_iff s.mMap ⟨a, b⟩).mpr hc
      rw [hab] at this
      cases this
    constructor
    · apply (pattern_cells s layer value a b).2
      rintro ⟨col, row, h1, h2, h3, h4, h5, h6, h7, h8⟩
      apply hout
      omega
    · apply (pattern_collision_cells s a b).2
      rintro ⟨col, row, h1, h2, h3, h4, h5, h6, h7, h8⟩
      apply hout
      omega

end Landlord
